import Mathlib

/-!
Input device registry of the Android front end (`jni/button_manager.cpp`)

A shallow embedding of the button and analog registries (`ButtonList`,
`AnalogList`), the handles they point to (`KeyButton`, `Joystick`) and the
factories that create them (`ButtonFactory`, `AnalogFactory`).

Modelling decisions.

* A handle is identified by the address of its object (`Ptr`).  The registry
  stores raw pointers, so a registration is a pair of a code and an address.
* The atomic state words of the objects are a memory indexed by address
  (`status`, resp. `x_axis` and `y_axis`).  A store overwrites one cell, a load
  reads one cell.
* `live` is the set of addresses that hold a constructed, not yet destroyed
  object.  `std::make_unique` returns an address outside `live`; the address is
  an argument of `Create`.
* Every registry operation takes the registry mutex for its whole body, so the
  operations are modelled as atomic state transformers, applied one after the
  other.
* A `float` is represented by its binary32 bit pattern: the registry stores and
  loads it and never computes with it.
-/

namespace InputManager

/-- Address of a heap object (`KeyButton *`, `Joystick *`). -/
abbrev Ptr := Nat

/-- Modelled from the spec: `Common::ParamPackage` (declared in
`common/param_package.h`, which is not among the sources): the binding
descriptor, a key-value mapping with string keys and string values. -/
structure ParamPackage where
  data : List (String × String)

/-- Value of a decimal digit string, most significant digit first. -/
def digitsValue (cs : List Char) : Nat :=
  cs.foldl (fun acc c => 10 * acc + (c.toNat - 48)) 0

/-- Reads a well-formed decimal integer: an optional minus sign followed by one
or more decimal digits and nothing else. -/
def parseInt (cs : List Char) : Option Int :=
  match cs with
  | [] => none
  | '-' :: ds =>
    if ds ≠ [] ∧ ds.all Char.isDigit then some (-(digitsValue ds : Int)) else none
  | ds =>
    if ds.all Char.isDigit then some (digitsValue ds : Int) else none

/-- Modelled from the spec: `ParamPackage::Get(key, default_value)` for an `int`
default (defined in `common/param_package.cpp`, which is not among the
sources).  The spec says of the `code` field: "absent or malformed → defaults to
code 0, never fails the call". -/
def ParamPackage.Get (params : ParamPackage) (key : String) (default_value : Int) : Int :=
  match params.data.lookup key with
  | none => default_value
  | some value =>
    match parseInt value.data with
    | none => default_value
    | some n => n

/-! ## Button registry -/

/-- The registration record `struct KeyButtonPair { int button_id; KeyButton *key_button; }`. -/
structure KeyButtonPair where
  button_id : Int
  key_button : Ptr
deriving DecidableEq, Repr

/-- The `ButtonList` of a `ButtonFactory` together with the `KeyButton` objects
its registrations point to. -/
structure ButtonState where
  /-- `ButtonList::list`. -/
  list : List KeyButtonPair
  /-- `KeyButton::status` of the object at each address. -/
  status : Ptr → Bool
  /-- Addresses of the `KeyButton` objects constructed and not yet destroyed. -/
  live : List Ptr

/-- The list operation `std::list::remove_if`: erases every element for which `pred` holds and keeps
the others in place. -/
def remove_if {α : Type} (pred : α → Bool) : List α → List α
  | [] => []
  | a :: rest => if pred a then remove_if pred rest else a :: remove_if pred rest

/-- The constructor `ButtonFactory::ButtonFactory()`: a fresh, empty `ButtonList`.  `mem` is the
content of the memory no object has been constructed in yet. -/
def ButtonFactory.new (mem : Ptr → Bool) : ButtonState :=
  { list := [], status := mem, live := [] }

/-- The poll `KeyButton::GetStatus()`: `status.load()` on the object at `key_button`. -/
def KeyButton.GetStatus (st : ButtonState) (key_button : Ptr) : Bool :=
  st.status key_button

/-- The atomic store `key_button->status.store(pressed)`. -/
def KeyButton.status_store (st : ButtonState) (key_button : Ptr) (pressed : Bool) :
    ButtonState :=
  { st with status := fun q => if q = key_button then pressed else st.status q }

/-- The constructor `KeyButton::KeyButton(button_list)` run on the storage at `key_button`: the
member initialiser `status{false}`; the object is live from here on. -/
def KeyButton.construct (st : ButtonState) (key_button : Ptr) : ButtonState :=
  { st with
    status := fun q => if q = key_button then false else st.status q
    live := key_button :: st.live }

/-- The method `ButtonList::AddButton`: `list.push_back(KeyButtonPair{button_id, key_button})`. -/
def ButtonList.AddButton (st : ButtonState) (button_id : Int) (key_button : Ptr) :
    ButtonState :=
  { st with list := st.list ++ [{ button_id := button_id, key_button := key_button }] }

/-- The method `ButtonList::RemoveButton`: `list.remove_if` on the registrations whose
`key_button` is the given address. -/
def ButtonList.RemoveButton (st : ButtonState) (key_button : Ptr) : ButtonState :=
  { st with list := remove_if (fun pair => decide (pair.key_button = key_button)) st.list }

/-- The method `ButtonList::ChangeButtonStatus`: walks the list and stores `pressed` in the
object of every registration whose `button_id` matches. -/
def ButtonList.ChangeButtonStatus (st : ButtonState) (button_id : Int) (pressed : Bool) :
    ButtonState :=
  st.list.foldl
    (fun s pair =>
      if pair.button_id = button_id then KeyButton.status_store s pair.key_button pressed
      else s)
    st

/-- The method `ButtonList::ChangeAllButtonStatus`: stores `pressed` in the object of every
registration. -/
def ButtonList.ChangeAllButtonStatus (st : ButtonState) (pressed : Bool) : ButtonState :=
  st.list.foldl (fun s pair => KeyButton.status_store s pair.key_button pressed) st

/-- The destructor `KeyButton::~KeyButton()`: `button_list->RemoveButton(this)`, after which the
object at `key_button` no longer exists. -/
def KeyButton.destroy (st : ButtonState) (key_button : Ptr) : ButtonState :=
  let st1 := ButtonList.RemoveButton st key_button
  { st1 with live := st1.live.filter (fun q => decide (q ≠ key_button)) }

/-- The method `ButtonFactory::Create`: reads the code, constructs a `KeyButton` at the
address `key_button` handed out by `std::make_unique`, and registers it. -/
def ButtonFactory.Create (st : ButtonState) (params : ParamPackage) (key_button : Ptr) :
    ButtonState :=
  let button_id := params.Get "code" 0
  let st1 := KeyButton.construct st key_button
  ButtonList.AddButton st1 button_id key_button

/-- The forward `ButtonFactory::PressKey`. -/
def ButtonFactory.PressKey (st : ButtonState) (button_id : Int) : ButtonState :=
  ButtonList.ChangeButtonStatus st button_id true

/-- The forward `ButtonFactory::ReleaseKey`. -/
def ButtonFactory.ReleaseKey (st : ButtonState) (button_id : Int) : ButtonState :=
  ButtonList.ChangeButtonStatus st button_id false

/-! ## Analog registry -/

/-- A C++ `float`, given by its IEEE-754 binary32 bit pattern.  Atomic stores and
loads copy the pattern unchanged. -/
structure CFloat where
  bits : Nat
deriving DecidableEq, Repr

/-- The literal `0.0f`. -/
def CFloat.zero : CFloat := ⟨0x00000000⟩

/-- The registration record `struct AnalogPair { int analog_id; Joystick *key_button; }`. -/
structure AnalogPair where
  analog_id : Int
  key_button : Ptr
deriving DecidableEq, Repr

/-- The `AnalogList` of an `AnalogFactory` together with the `Joystick` objects
its registrations point to. -/
structure AnalogState where
  /-- `AnalogList::list`. -/
  list : List AnalogPair
  /-- `Joystick::x_axis` of the object at each address. -/
  x_axis : Ptr → CFloat
  /-- `Joystick::y_axis` of the object at each address. -/
  y_axis : Ptr → CFloat
  /-- Addresses of the `Joystick` objects constructed and not yet destroyed. -/
  live : List Ptr

/-- The constructor `AnalogFactory::AnalogFactory()`: a fresh, empty `AnalogList`.  `memx` and
`memy` are the content of the memory no object has been constructed in yet. -/
def AnalogFactory.new (memx memy : Ptr → CFloat) : AnalogState :=
  { list := [], x_axis := memx, y_axis := memy, live := [] }

/-- The poll `Joystick::GetStatus()`: `std::make_tuple(x_axis.load(), y_axis.load())`. -/
def Joystick.GetStatus (st : AnalogState) (key_button : Ptr) : CFloat × CFloat :=
  (st.x_axis key_button, st.y_axis key_button)

/-- The atomic store `key_button->x_axis.store(x)`. -/
def Joystick.x_axis_store (st : AnalogState) (key_button : Ptr) (x : CFloat) : AnalogState :=
  { st with x_axis := fun q => if q = key_button then x else st.x_axis q }

/-- The atomic store `key_button->y_axis.store(y)`. -/
def Joystick.y_axis_store (st : AnalogState) (key_button : Ptr) (y : CFloat) : AnalogState :=
  { st with y_axis := fun q => if q = key_button then y else st.y_axis q }

/-- The constructor `Joystick::Joystick(button_list)` run on the storage at `key_button`: the
member initialisers `x_axis{0.0f}` and `y_axis{0.0f}`; the object is live from
here on. -/
def Joystick.construct (st : AnalogState) (key_button : Ptr) : AnalogState :=
  { st with
    x_axis := fun q => if q = key_button then CFloat.zero else st.x_axis q
    y_axis := fun q => if q = key_button then CFloat.zero else st.y_axis q
    live := key_button :: st.live }

/-- The method `AnalogList::AddButton`: `list.push_back(AnalogPair{analog_id, key_button})`. -/
def AnalogList.AddButton (st : AnalogState) (analog_id : Int) (key_button : Ptr) :
    AnalogState :=
  { st with list := st.list ++ [{ analog_id := analog_id, key_button := key_button }] }

/-- The method `AnalogList::RemoveButton`: `list.remove_if` on the registrations whose
`key_button` is the given address. -/
def AnalogList.RemoveButton (st : AnalogState) (key_button : Ptr) : AnalogState :=
  { st with list := remove_if (fun pair => decide (pair.key_button = key_button)) st.list }

/-- The method `AnalogList::ChangeJoystickStatus`: walks the list and stores `x` and `y` in
the object of every registration whose `analog_id` matches. -/
def AnalogList.ChangeJoystickStatus (st : AnalogState) (analog_id : Int) (x y : CFloat) :
    AnalogState :=
  st.list.foldl
    (fun s pair =>
      if pair.analog_id = analog_id then
        Joystick.y_axis_store (Joystick.x_axis_store s pair.key_button x) pair.key_button y
      else s)
    st

/-- The method `AnalogList::ChangeAllButtonStatus`: stores `x` and `y` in the object of
every registration; the body never reads `analog_id`. -/
def AnalogList.ChangeAllButtonStatus (st : AnalogState) (_analog_id : Int) (x y : CFloat) :
    AnalogState :=
  st.list.foldl
    (fun s pair =>
      Joystick.y_axis_store (Joystick.x_axis_store s pair.key_button x) pair.key_button y)
    st

/-- The destructor `Joystick::~Joystick()`: `button_list->RemoveButton(this)`, after which the
object at `key_button` no longer exists. -/
def Joystick.destroy (st : AnalogState) (key_button : Ptr) : AnalogState :=
  let st1 := AnalogList.RemoveButton st key_button
  { st1 with live := st1.live.filter (fun q => decide (q ≠ key_button)) }

/-- The method `AnalogFactory::Create`: reads the code, constructs a `Joystick` at the
address `key_button` handed out by `std::make_unique`, and registers it. -/
def AnalogFactory.Create (st : AnalogState) (params : ParamPackage) (key_button : Ptr) :
    AnalogState :=
  let analog_id := params.Get "code" 0
  let st1 := Joystick.construct st key_button
  AnalogList.AddButton st1 analog_id key_button

/-- The forward `AnalogFactory::MoveJoystick`. -/
def AnalogFactory.MoveJoystick (st : AnalogState) (analog_id : Int) (x y : CFloat) :
    AnalogState :=
  AnalogList.ChangeJoystickStatus st analog_id x y

/-! ## Histories of operations -/

/-- One call on the button side. -/
inductive ButtonOp where
  /-- `ButtonFactory::Create(params)`, the new object allocated at `key_button`. -/
  | create (params : ParamPackage) (key_button : Ptr)
  /-- Destruction of the handle at `key_button`. -/
  | destroy (key_button : Ptr)
  /-- `ButtonFactory::PressKey(button_id)`. -/
  | press (button_id : Int)
  /-- `ButtonFactory::ReleaseKey(button_id)`. -/
  | release (button_id : Int)
  /-- `ButtonList::ChangeAllButtonStatus(pressed)`. -/
  | changeAll (pressed : Bool)

/-- Effect of one call on the button side. -/
def ButtonOp.apply (st : ButtonState) : ButtonOp → ButtonState
  | .create params key_button => ButtonFactory.Create st params key_button
  | .destroy key_button => KeyButton.destroy st key_button
  | .press button_id => ButtonFactory.PressKey st button_id
  | .release button_id => ButtonFactory.ReleaseKey st button_id
  | .changeAll pressed => ButtonList.ChangeAllButtonStatus st pressed

/-- What the environment guarantees of a call: the allocator hands out an address
that holds no live object, and only a live handle is destroyed. -/
def ButtonOp.allowed (st : ButtonState) : ButtonOp → Bool
  | .create _ key_button => decide (key_button ∉ st.live)
  | .destroy key_button => decide (key_button ∈ st.live)
  | _ => true

/-- Whether the call writes handle state through the registry. -/
def ButtonOp.isUpdate : ButtonOp → Bool
  | .press _ => true
  | .release _ => true
  | .changeAll _ => true
  | _ => false

/-- State after a history of calls. -/
def ButtonOp.run (st : ButtonState) (ops : List ButtonOp) : ButtonState :=
  ops.foldl ButtonOp.apply st

/-- Whether every call of a history is allowed in the state it is issued in. -/
def ButtonOp.allowedAll (st : ButtonState) : List ButtonOp → Bool
  | [] => true
  | op :: ops => ButtonOp.allowed st op && ButtonOp.allowedAll (ButtonOp.apply st op) ops

/-- One call on the analog side. -/
inductive AnalogOp where
  /-- `AnalogFactory::Create(params)`, the new object allocated at `key_button`. -/
  | create (params : ParamPackage) (key_button : Ptr)
  /-- Destruction of the handle at `key_button`. -/
  | destroy (key_button : Ptr)
  /-- `AnalogFactory::MoveJoystick(analog_id, x, y)`. -/
  | move (analog_id : Int) (x y : CFloat)
  /-- `AnalogList::ChangeAllButtonStatus(analog_id, x, y)`. -/
  | changeAll (analog_id : Int) (x y : CFloat)

/-- Effect of one call on the analog side. -/
def AnalogOp.apply (st : AnalogState) : AnalogOp → AnalogState
  | .create params key_button => AnalogFactory.Create st params key_button
  | .destroy key_button => Joystick.destroy st key_button
  | .move analog_id x y => AnalogFactory.MoveJoystick st analog_id x y
  | .changeAll analog_id x y => AnalogList.ChangeAllButtonStatus st analog_id x y

/-- What the environment guarantees of a call: the allocator hands out an address
that holds no live object, and only a live handle is destroyed. -/
def AnalogOp.allowed (st : AnalogState) : AnalogOp → Bool
  | .create _ key_button => decide (key_button ∉ st.live)
  | .destroy key_button => decide (key_button ∈ st.live)
  | _ => true

/-- Whether the call writes handle state through the registry. -/
def AnalogOp.isUpdate : AnalogOp → Bool
  | .move _ _ _ => true
  | .changeAll _ _ _ => true
  | _ => false

/-- State after a history of calls. -/
def AnalogOp.run (st : AnalogState) (ops : List AnalogOp) : AnalogState :=
  ops.foldl AnalogOp.apply st

/-- Whether every call of a history is allowed in the state it is issued in. -/
def AnalogOp.allowedAll (st : AnalogState) : List AnalogOp → Bool
  | [] => true
  | op :: ops => AnalogOp.allowed st op && AnalogOp.allowedAll (AnalogOp.apply st op) ops

/-- A press or release event. -/
structure KeyEvent where
  button_id : Int
  pressed : Bool
deriving DecidableEq, Repr

/-- Delivery of a key event: `PressKey` or `ReleaseKey`. -/
def KeyEvent.apply (st : ButtonState) (e : KeyEvent) : ButtonState :=
  if e.pressed then ButtonFactory.PressKey st e.button_id
  else ButtonFactory.ReleaseKey st e.button_id

/-- Value of the last event of a sequence that carries the given code, if any. -/
def KeyEvent.lastFor (button_id : Int) : List KeyEvent → Option Bool
  | [] => none
  | e :: es =>
    match KeyEvent.lastFor button_id es with
    | some v => some v
    | none => if e.button_id = button_id then some e.pressed else none

/-- States of the button side the program can be in: those reached from a fresh
factory by a history of allowed calls. -/
def ButtonState.Reachable (st : ButtonState) : Prop :=
  ∃ (mem : Ptr → Bool) (ops : List ButtonOp),
    ButtonOp.allowedAll (ButtonFactory.new mem) ops = true ∧
    st = ButtonOp.run (ButtonFactory.new mem) ops

/-- States of the analog side the program can be in: those reached from a fresh
factory by a history of allowed calls. -/
def AnalogState.Reachable (st : AnalogState) : Prop :=
  ∃ (memx memy : Ptr → CFloat) (ops : List AnalogOp),
    AnalogOp.allowedAll (AnalogFactory.new memx memy) ops = true ∧
    st = AnalogOp.run (AnalogFactory.new memx memy) ops

/-- Registry invariant of the button side: no address is registered twice, and
the registered addresses are the live ones. -/
def ButtonState.WellFormed (st : ButtonState) : Prop :=
  (st.list.map KeyButtonPair.key_button).Nodup ∧
  ∀ p, p ∈ st.list.map KeyButtonPair.key_button ↔ p ∈ st.live

/-- Registry invariant of the analog side: no address is registered twice, and
the registered addresses are the live ones. -/
def AnalogState.WellFormed (st : AnalogState) : Prop :=
  (st.list.map AnalogPair.key_button).Nodup ∧
  ∀ p, p ∈ st.list.map AnalogPair.key_button ↔ p ∈ st.live

/-! ## Sample inputs -/

/-- The descriptor with engine `gamepad` and the given text in its `code` field. -/
def gamepadParams (code : String) : ParamPackage :=
  ⟨[("engine", "gamepad"), ("code", code)]⟩

/-- A button factory with two handles created under code 42, at addresses 100
and 200; the memory they were allocated in held `true` before. -/
def twoButtons42 : ButtonState :=
  ButtonOp.run (ButtonFactory.new (fun _ => true))
    [.create (gamepadParams "42") 100, .create (gamepadParams "42") 200]

/-- The float `0.5f`. -/
def CFloat.half : CFloat := ⟨0x3F000000⟩

/-- The float `-0.75f`. -/
def CFloat.negThreeQuarters : CFloat := ⟨0xBF400000⟩

/-- The float `1.0f`. -/
def CFloat.one : CFloat := ⟨0x3F800000⟩

/-- An analog factory with one handle under code 10 at address 300 and one under
code 15 at address 400. -/
def twoSticks : AnalogState :=
  AnalogOp.run (AnalogFactory.new (fun _ => CFloat.one) (fun _ => CFloat.one))
    [.create (gamepadParams "10") 300, .create (gamepadParams "15") 400]

/-- A button history: handles under codes 5, 5 and 7 at addresses 1, 2 and 3, the
first one destroyed again, then a press of 5. -/
def sampleButtonOps : List ButtonOp :=
  [.create (gamepadParams "5") 1, .create (gamepadParams "5") 2,
   .create (gamepadParams "7") 3, .destroy 1, .press 5]

/-- An analog history: handles under codes 10 and 15 at addresses 300 and 400,
a move of stick 15, and the destruction of the handle at 300. -/
def sampleAnalogOps : List AnalogOp :=
  [.create (gamepadParams "10") 300, .create (gamepadParams "15") 400,
   .move 15 CFloat.half CFloat.negThreeQuarters, .destroy 300]

/-- The button state after `sampleButtonOps`. -/
def sampleButtons : ButtonState :=
  ButtonOp.run (ButtonFactory.new (fun _ => false)) sampleButtonOps

/-- The analog state after `sampleAnalogOps`. -/
def sampleSticks : AnalogState :=
  AnalogOp.run (AnalogFactory.new (fun _ => CFloat.zero) (fun _ => CFloat.zero)) sampleAnalogOps

/-! ## Analog events -/

/-- An analog event: the arguments of one `MoveJoystick` call. -/
structure MoveEvent where
  analog_id : Int
  x : CFloat
  y : CFloat
deriving DecidableEq, Repr

/-- Delivery of an analog event: `MoveJoystick`. -/
def MoveEvent.apply (st : AnalogState) (e : MoveEvent) : AnalogState :=
  AnalogFactory.MoveJoystick st e.analog_id e.x e.y

/-- A descriptor with an engine and no `code` key. -/
def paramsWithoutCode : ParamPackage := ⟨[("engine", "gamepad")]⟩

/-! ## Text form of descriptors -/

/-- The C++ `std::to_string(int)`: the decimal digits of the value, after a minus
sign when it is negative. -/
def to_string (value : Int) : String :=
  if value < 0 then ⟨'-' :: Nat.toDigits 10 value.natAbs⟩
  else ⟨Nat.toDigits 10 value.toNat⟩

/-- Modelled from the spec: `ParamPackage::Serialize()` (defined in
`common/param_package.cpp`, which is not among the sources), the text form of a
descriptor. The format is the one of the descriptor literals of `config.cpp`,
such as `engine:motion_emu,update_period:100`: the items `key:value`, joined by
commas. -/
def ParamPackage.Serialize (params : ParamPackage) : String :=
  ⟨List.intercalate [','] (params.data.map (fun kv => kv.1.data ++ ':' :: kv.2.data))⟩

/-- The pieces of a text between the occurrences of a separator. -/
def splitChars (sep : Char) : List Char → List (List Char)
  | [] => [[]]
  | c :: cs =>
    if c = sep then [] :: splitChars sep cs
    else
      match splitChars sep cs with
      | [] => [[c]]
      | item :: items => (c :: item) :: items

/-- Modelled from the spec: the constructor `ParamPackage::ParamPackage(const
std::string&)` (defined in `common/param_package.cpp`, which is not among the
sources), which reads a descriptor back from its text form: the text is cut at
the commas, and every item made of a key and a value around one colon gives an
entry. -/
def ParamPackage.ofSerialized (serialized : String) : ParamPackage :=
  ⟨(splitChars ',' serialized.data).filterMap (fun item =>
      match splitChars ':' item with
      | [key, value] => some (⟨key⟩, ⟨value⟩)
      | _ => none)⟩

/-- The function `GenerateButtonParamPackage`: the text form of the descriptor with
engine `gamepad` and the decimal rendering of `button` as code. -/
def GenerateButtonParamPackage (button : Int) : String :=
  let param : ParamPackage := ⟨[("engine", "gamepad"), ("code", to_string button)]⟩
  param.Serialize

/-- The function `GenerateAnalogParamPackage`: the text form of the descriptor with
engine `gamepad` and the decimal rendering of `button` as code. -/
def GenerateAnalogParamPackage (button : Int) : String :=
  let param : ParamPackage := ⟨[("engine", "gamepad"), ("code", to_string button)]⟩
  param.Serialize

/-! ## Module state: the factory singletons and the device-factory directory -/

/-- Modelled from the spec: the device-factory directory of one device kind
(`Input::Impl::FactoryList`, declared in `core/frontend/input.h`, which is not
among the sources): the registered factories, keyed by engine name. A factory is
given by the address of its object. -/
abbrev FactoryDirectory := List (String × Ptr)

/-- Modelled from the spec: `Input::RegisterFactory(name, factory)` (declared in
`core/frontend/input.h`, which is not among the sources): enters the factory in
the directory under the engine name; the directory stays keyed by name. -/
def RegisterFactory (directory : FactoryDirectory) (name : String) (factory : Ptr) :
    FactoryDirectory :=
  if directory.any (fun entry => entry.1 == name) then directory
  else directory ++ [(name, factory)]

/-- Modelled from the spec: `Input::UnregisterFactory(name)` (declared in
`core/frontend/input.h`, which is not among the sources): takes the entry of the
engine name out of the directory. -/
def UnregisterFactory (directory : FactoryDirectory) (name : String) : FactoryDirectory :=
  directory.filter (fun entry => !(entry.1 == name))

/-- The globals the facade works on: the two static factory pointers of
`button_manager.cpp` and the two directories they are registered in. -/
structure Globals where
  /-- `static std::shared_ptr<ButtonFactory> button`; `none` is the null pointer. -/
  button : Option Ptr
  /-- `static std::shared_ptr<AnalogFactory> analog`; `none` is the null pointer. -/
  analog : Option Ptr
  /-- Directory of the `Input::ButtonDevice` factories. -/
  button_factories : FactoryDirectory
  /-- Directory of the `Input::AnalogDevice` factories. -/
  analog_factories : FactoryDirectory

/-- Globals at process start: both pointers null, nothing registered. -/
def Globals.start : Globals :=
  { button := none, analog := none, button_factories := [], analog_factories := [] }

/-- The function `InputManager::Init`; `button_factory` and `analog_factory` are the
addresses of the factories made by the two `std::make_shared` calls. -/
def Init (g : Globals) (button_factory analog_factory : Ptr) : Globals :=
  let g1 := { g with button := some button_factory }
  let g2 := { g1 with analog := some analog_factory }
  let g3 := { g2 with
    button_factories := RegisterFactory g2.button_factories "gamepad" button_factory }
  { g3 with
    analog_factories := RegisterFactory g3.analog_factories "gamepad" analog_factory }

/-- The function `InputManager::Shutdown`: one `UnregisterFactory` call, on the
button-device directory, then the two `reset()` calls. -/
def Shutdown (g : Globals) : Globals :=
  let g1 := { g with button_factories := UnregisterFactory g.button_factories "gamepad" }
  let g2 := { g1 with button := none }
  { g2 with analog := none }

/-- The accessor `InputManager::ButtonHandler`: `button.get()`. -/
def ButtonHandler (g : Globals) : Option Ptr := g.button

/-- The accessor `InputManager::AnalogHandler`: `analog.get()`. -/
def AnalogHandler (g : Globals) : Option Ptr := g.analog

/-- Whether a directory has an entry for the engine name. -/
def FactoryDirectory.hasEntry (directory : FactoryDirectory) (name : String) : Bool :=
  directory.any (fun entry => entry.1 == name)

/-! ## The two factories side by side, and the JNI entry points -/

/-- The objects behind `ButtonHandler()` and `AnalogHandler()` between `Init` and
`Shutdown`: the button factory and the analog factory, each with its own list
and its own handles. -/
structure InputState where
  button : ButtonState
  analog : AnalogState

/-- The call `ButtonHandler()->PressKey(button_id)`. -/
def InputState.PressKey (s : InputState) (button_id : Int) : InputState :=
  { s with button := ButtonFactory.PressKey s.button button_id }

/-- The call `ButtonHandler()->ReleaseKey(button_id)`. -/
def InputState.ReleaseKey (s : InputState) (button_id : Int) : InputState :=
  { s with button := ButtonFactory.ReleaseKey s.button button_id }

/-- The call `AnalogHandler()->MoveJoystick(analog_id, x, y)`. -/
def InputState.MoveJoystick (s : InputState) (analog_id : Int) (x y : CFloat) : InputState :=
  { s with analog := AnalogFactory.MoveJoystick s.analog analog_id x y }

/-- Unary minus on a `float`: the sign bit (bit 31) is flipped. -/
def CFloat.neg (y : CFloat) : CFloat :=
  ⟨if y.bits < 0x80000000 then y.bits + 0x80000000 else y.bits - 0x80000000⟩

/-- The JNI entry point `Java_org_citra_citra_1android_NativeLibrary_onGamePadEvent`:
`PressKey(button)` when `pressed` is not zero, `ReleaseKey(button)` otherwise. -/
def onGamePadEvent (s : InputState) (button pressed : Int) : InputState :=
  if pressed ≠ 0 then s.PressKey button else s.ReleaseKey button

/-- The JNI entry point `Java_org_citra_citra_1android_NativeLibrary_onGamePadMoveEvent`:
`y = -y`, then `MoveJoystick(Axis, x, y)`. -/
def onGamePadMoveEvent (s : InputState) (Axis : Int) (x y : CFloat) : InputState :=
  let y1 := CFloat.neg y
  s.MoveJoystick Axis x y1

/-! ## A poll that overlaps a broadcast -/

/-- One atomic access to the two state words of a `Joystick`. The stores and loads
of `std::atomic` are sequentially consistent, so a run of two threads is an
interleaving of their accesses. -/
inductive AxisAccess where
  /-- `key_button->x_axis.store(x)`, in the loop of `ChangeJoystickStatus`. -/
  | store_x (x : CFloat)
  /-- `key_button->y_axis.store(y)`, in the loop of `ChangeJoystickStatus`. -/
  | store_y (y : CFloat)
  /-- `x_axis.load()`, in `GetStatus`. -/
  | load_x
  /-- `y_axis.load()`, in `GetStatus`. -/
  | load_y
deriving DecidableEq, Repr

/-- The accesses of the broadcast thread to one matching handle: the loop body of
`ChangeJoystickStatus`. The mutex it holds is not taken by `GetStatus`. -/
def broadcastAccesses (x y : CFloat) : List AxisAccess := [.store_x x, .store_y y]

/-- The accesses of the polling thread: `GetStatus`. -/
def pollAccesses : List AxisAccess := [.load_x, .load_y]

/-- A poll in progress next to the analog state: what its loads have returned so
far. -/
structure PollRun where
  st : AnalogState
  x_read : Option CFloat
  y_read : Option CFloat

/-- Effect of one access on the handle at `key_button`. -/
def AxisAccess.perform (key_button : Ptr) (r : PollRun) : AxisAccess → PollRun
  | .store_x x => { r with st := Joystick.x_axis_store r.st key_button x }
  | .store_y y => { r with st := Joystick.y_axis_store r.st key_button y }
  | .load_x => { r with x_read := some (r.st.x_axis key_button) }
  | .load_y => { r with y_read := some (r.st.y_axis key_button) }

/-- The run of a schedule of accesses from a state in which the poll has not
started. -/
def runSchedule (st : AnalogState) (key_button : Ptr) (schedule : List AxisAccess) : PollRun :=
  schedule.foldl (AxisAccess.perform key_button) { st := st, x_read := none, y_read := none }

/-- The pair the poll returns at the end of a run. -/
def PollRun.result (r : PollRun) : Option (CFloat × CFloat) :=
  match r.x_read, r.y_read with
  | some x, some y => some (x, y)
  | _, _ => none

/-- Helper of `interleavings`: the merges of `a :: as` with a second list, given
the merges of `as` with any list. -/
def interleavingsAux {α : Type} (a : α) (as : List α) (mergeTail : List α → List (List α)) :
    List α → List (List α)
  | [] => [a :: as]
  | b :: bs =>
    (mergeTail (b :: bs)).map (fun l => a :: l)
      ++ (interleavingsAux a as mergeTail bs).map (fun l => b :: l)

/-- All the merges of two lists that keep the order of each. -/
def interleavings {α : Type} : List α → List α → List (List α)
  | [], bs => [bs]
  | a :: as, bs => interleavingsAux a as (interleavings as) bs

/-- The two buttons of `twoButtons42`, created in the opposite order. -/
def twoButtons42Swapped : ButtonState :=
  ButtonOp.run (ButtonFactory.new (fun _ => true))
    [.create (gamepadParams "42") 200, .create (gamepadParams "42") 100]

/-- The two sticks of `twoSticks`, created in the opposite order. -/
def twoSticksSwapped : AnalogState :=
  AnalogOp.run (AnalogFactory.new (fun _ => CFloat.one) (fun _ => CFloat.one))
    [.create (gamepadParams "15") 400, .create (gamepadParams "10") 300]

/-! ## Configuration of the default bindings (`config.cpp`) -/

/-- The parsed settings file as `INIReader` (the inih library) exposes it: the
value stored under a section and a name, when there is one. -/
structure INIReader where
  value : String → String → Option String

/-- The library call `INIReader::Get(section, name, default_value)`: the stored
value, or `default_value` when the file has none under that section and name. -/
def INIReader.Get (reader : INIReader) (sect name default_value : String) : String :=
  match reader.value sect name with
  | some v => v
  | none => default_value

/-- The table `default_buttons` of `config.cpp`, with the values of the `ButtonType`
enumerators of `button_manager.h`. -/
def default_buttons : List Int :=
  [700, 701, 702,
   703, 709, 710,
   711, 712, 773,
   774, 704, 705,
   707, 708, 706]

/-- The table `default_analogs` of `config.cpp`: `N3DS_CIRCLEPAD` and `N3DS_STICK_C`. -/
def default_analogs : List Int := [713, 718]

/-- The binding slots of `Settings::values`: `buttons[i]` and `analogs[i]`. -/
structure Values where
  buttons : Nat → String
  analogs : Nat → String

/-- The Controls part of `Config::ReadValues`: the two loops over the button and the
analog slots. `NumButtons`, `NumAnalogs` and the two `mapping` tables of key
names are declared in `core/settings.h`, which is not among the sources, and
are parameters; an array element past the initialisers of a default table is
zero. The later assignments of `ReadValues` write other settings. -/
def Config.ReadValues (sdl2_config : INIReader) (NumButtons NumAnalogs : Nat)
    (button_mapping analog_mapping : Nat → String) (values : Values) : Values :=
  let values1 := (List.range NumButtons).foldl
    (fun v i =>
      let default_param := GenerateButtonParamPackage (default_buttons.getD i 0)
      let v1 : Values := { v with
        buttons := Function.update v.buttons i
          (sdl2_config.Get "Controls" (button_mapping i) default_param) }
      if v1.buttons i = "" then
        { v1 with buttons := Function.update v1.buttons i default_param }
      else v1)
    values
  (List.range NumAnalogs).foldl
    (fun v i =>
      let default_param := GenerateAnalogParamPackage (default_analogs.getD i 0)
      let v1 : Values := { v with
        analogs := Function.update v.analogs i
          (sdl2_config.Get "Controls" (analog_mapping i) default_param) }
      if v1.analogs i = "" then
        { v1 with analogs := Function.update v1.analogs i default_param }
      else v1)
    values1

/-- A settings file that binds `button_a` to a keyboard key, holds an empty
`button_b` entry, and binds `circle_pad`. -/
def sampleIni : INIReader :=
  ⟨fun sect name =>
    if sect = "Controls" ∧ name = "button_a" then some "engine:keyboard,code:65"
    else if sect = "Controls" ∧ name = "button_b" then some ""
    else if sect = "Controls" ∧ name = "circle_pad" then some "engine:analog_from_button"
    else none⟩

/-- Key names of the first button slots, for the sample. -/
def sampleButtonMapping (i : Nat) : String :=
  if i = 0 then "button_a" else if i = 1 then "button_b" else "button_x"

/-- Key names of the analog slots, for the sample. -/
def sampleAnalogMapping (i : Nat) : String :=
  if i = 0 then "circle_pad" else "c_stick"

/-- The binding a slot is expected to hold: the stored text when there is one and
it is not empty, the default otherwise. -/
def configuredOrDefault (stored : Option String) (default_param : String) : String :=
  match stored with
  | some s => if s = "" then default_param else s
  | none => default_param

/-- The binding button slot `i` is expected to hold after `ReadValues`. -/
def buttonBinding (sdl2_config : INIReader) (button_mapping : Nat → String) (i : Nat) : String :=
  configuredOrDefault (sdl2_config.value "Controls" (button_mapping i))
    (GenerateButtonParamPackage (default_buttons.getD i 0))

/-- The binding analog slot `i` is expected to hold after `ReadValues`. -/
def analogBinding (sdl2_config : INIReader) (analog_mapping : Nat → String) (i : Nat) : String :=
  configuredOrDefault (sdl2_config.value "Controls" (analog_mapping i))
    (GenerateAnalogParamPackage (default_analogs.getD i 0))

/-! ## Reading a binary32 bit pattern -/

/-- Sign field of a binary32 pattern (bit 31): 0 for plus, 1 for minus. -/
def CFloat.sign (f : CFloat) : Nat := f.bits / 0x80000000

/-- Biased exponent field of a binary32 pattern (bits 23 to 30). -/
def CFloat.exponent (f : CFloat) : Nat := (f.bits / 0x800000) % 256

/-- Fraction field of a binary32 pattern (bits 0 to 22). -/
def CFloat.mantissa (f : CFloat) : Nat := f.bits % 0x800000

/-- The number a finite binary32 pattern stands for, by IEEE 754: the fraction
scaled by two to the exponent, with the hidden leading one unless the exponent
field is zero, negated when the sign bit is set. -/
def CFloat.toRat (f : CFloat) : ℚ :=
  let magnitude : ℚ :=
    if f.exponent = 0 then (f.mantissa : ℚ) * (2 : ℚ) ^ (-149 : ℤ)
    else ((0x800000 + f.mantissa : Nat) : ℚ) * (2 : ℚ) ^ ((f.exponent : ℤ) - 150)
  if f.sign = 0 then magnitude else -magnitude

/-- The float `0.75f`. -/
def CFloat.threeQuarters : CFloat := ⟨0x3F400000⟩

end InputManager

namespace InputManager

/-! ## Auxiliary facts -/

theorem remove_if_eq_filter {α : Type} (pred : α → Bool) (l : List α) :
    remove_if pred l = l.filter (fun a => !pred a) := by
  induction l with
  | nil => rfl
  | cons a rest ih =>
    cases hp : pred a <;> simp [remove_if, hp, ih]

/-- The loop of `ChangeButtonStatus` keeps the registration list. -/
theorem ButtonList.button_changeLoop_list (c : Int) (v : Bool) (l : List KeyButtonPair)
    (s : ButtonState) :
    (l.foldl (fun s pair =>
        if pair.button_id = c then KeyButton.status_store s pair.key_button v else s) s).list
      = s.list := by
  induction l generalizing s with
  | nil => rfl
  | cons a rest ih =>
    simp only [List.foldl_cons]
    rw [ih]
    split <;> rfl

/-- The loop of `ChangeButtonStatus` keeps the set of live objects. -/
theorem ButtonList.button_changeLoop_live (c : Int) (v : Bool) (l : List KeyButtonPair)
    (s : ButtonState) :
    (l.foldl (fun s pair =>
        if pair.button_id = c then KeyButton.status_store s pair.key_button v else s) s).live
      = s.live := by
  induction l generalizing s with
  | nil => rfl
  | cons a rest ih =>
    simp only [List.foldl_cons]
    rw [ih]
    split <;> rfl

/-- The loop of `ChangeButtonStatus` leaves `v` in the cells of the matching
registrations and keeps every other cell. -/
theorem ButtonList.changeLoop_status (c : Int) (v : Bool) (l : List KeyButtonPair)
    (s : ButtonState) (q : Ptr) :
    (l.foldl (fun s pair =>
        if pair.button_id = c then KeyButton.status_store s pair.key_button v else s) s).status q
      = if l.any (fun pair => decide (pair.button_id = c ∧ pair.key_button = q)) then v
        else s.status q := by
  induction l generalizing s with
  | nil => simp
  | cons a rest ih =>
    simp only [List.foldl_cons, List.any_cons]
    rw [ih]
    by_cases hr : ∃ x ∈ rest, x.button_id = c ∧ x.key_button = q
    · simp [hr]
    · by_cases hc : a.button_id = c
      · by_cases hq : a.key_button = q
        · simp [hr, hc, hq, KeyButton.status_store]
        · have hq2 : ¬ q = a.key_button := fun h => hq h.symm
          simp [hr, hc, hq, hq2, KeyButton.status_store]
      · simp [hr, hc]

theorem ButtonList.ChangeButtonStatus_list (st : ButtonState) (c : Int) (v : Bool) :
    (ButtonList.ChangeButtonStatus st c v).list = st.list :=
  ButtonList.button_changeLoop_list c v st.list st

theorem ButtonList.ChangeButtonStatus_live (st : ButtonState) (c : Int) (v : Bool) :
    (ButtonList.ChangeButtonStatus st c v).live = st.live :=
  ButtonList.button_changeLoop_live c v st.list st

theorem ButtonList.ChangeButtonStatus_status (st : ButtonState) (c : Int) (v : Bool) (q : Ptr) :
    (ButtonList.ChangeButtonStatus st c v).status q
      = if st.list.any (fun pair => decide (pair.button_id = c ∧ pair.key_button = q)) then v
        else st.status q :=
  ButtonList.changeLoop_status c v st.list st q

/-- The loop of `ChangeAllButtonStatus` keeps the registration list. -/
theorem ButtonList.button_changeAllLoop_list (v : Bool) (l : List KeyButtonPair) (s : ButtonState) :
    (l.foldl (fun s pair => KeyButton.status_store s pair.key_button v) s).list = s.list := by
  induction l generalizing s with
  | nil => rfl
  | cons a rest ih =>
    simp only [List.foldl_cons]
    rw [ih]
    rfl

/-- The loop of `ChangeAllButtonStatus` keeps the set of live objects. -/
theorem ButtonList.button_changeAllLoop_live (v : Bool) (l : List KeyButtonPair) (s : ButtonState) :
    (l.foldl (fun s pair => KeyButton.status_store s pair.key_button v) s).live = s.live := by
  induction l generalizing s with
  | nil => rfl
  | cons a rest ih =>
    simp only [List.foldl_cons]
    rw [ih]
    rfl

/-- The loop of `ChangeAllButtonStatus` leaves `v` in the cell of every
registration and keeps every other cell. -/
theorem ButtonList.changeAllLoop_status (v : Bool) (l : List KeyButtonPair) (s : ButtonState)
    (q : Ptr) :
    (l.foldl (fun s pair => KeyButton.status_store s pair.key_button v) s).status q
      = if l.any (fun pair => decide (pair.key_button = q)) then v else s.status q := by
  induction l generalizing s with
  | nil => simp
  | cons a rest ih =>
    simp only [List.foldl_cons, List.any_cons]
    rw [ih]
    by_cases hr : ∃ x ∈ rest, x.key_button = q
    · simp [hr]
    · by_cases hq : a.key_button = q
      · simp [hr, hq, KeyButton.status_store]
      · have hq2 : ¬ q = a.key_button := fun h => hq h.symm
        simp [hr, hq, hq2, KeyButton.status_store]

/-- Without a matching registration the loop of `ChangeButtonStatus` returns the
state it started from. -/
theorem ButtonList.button_changeLoop_noop (c : Int) (v : Bool) (l : List KeyButtonPair)
    (s : ButtonState) (h : ∀ pair ∈ l, pair.button_id ≠ c) :
    l.foldl (fun s pair =>
        if pair.button_id = c then KeyButton.status_store s pair.key_button v else s) s = s := by
  induction l generalizing s with
  | nil => rfl
  | cons a rest ih =>
    have ha : a.button_id ≠ c := h a (List.mem_cons_self a rest)
    simp only [List.foldl_cons, if_neg ha]
    exact ih s (fun pair hp => h pair (List.mem_cons_of_mem a hp))

theorem ButtonList.button_RemoveButton_list (st : ButtonState) (h : Ptr) :
    (ButtonList.RemoveButton st h).list
      = st.list.filter (fun pair => decide (pair.key_button ≠ h)) := by
  simp [ButtonList.RemoveButton, remove_if_eq_filter]

theorem ButtonState.button_wellFormed_new (mem : Ptr → Bool) :
    (ButtonFactory.new mem).WellFormed := by
  simp [ButtonState.WellFormed, ButtonFactory.new]

theorem ButtonState.button_wellFormed_apply (st : ButtonState) (op : ButtonOp)
    (hwf : st.WellFormed) (hop : ButtonOp.allowed st op = true) :
    (ButtonOp.apply st op).WellFormed := by
  obtain ⟨hnd, hlive⟩ := hwf
  cases op with
  | create params p =>
    have hp : p ∉ st.live := by simpa [ButtonOp.allowed] using hop
    have hp2 : p ∉ st.list.map KeyButtonPair.key_button := fun h => hp ((hlive p).1 h)
    refine ⟨?_, ?_⟩
    · simp only [ButtonOp.apply, ButtonFactory.Create, ButtonList.AddButton,
        KeyButton.construct, List.map_append, List.map_cons, List.map_nil]
      exact List.Nodup.append hnd (List.nodup_singleton p)
        (by simpa [List.Disjoint] using hp2)
    · intro q
      simp only [ButtonOp.apply, ButtonFactory.Create, ButtonList.AddButton,
        KeyButton.construct, List.map_append, List.map_cons, List.map_nil,
        List.mem_append, List.mem_singleton, List.mem_cons]
      rw [hlive q]
      tauto
  | destroy p =>
    refine ⟨?_, ?_⟩
    · show ((ButtonList.RemoveButton st p).list.map KeyButtonPair.key_button).Nodup
      rw [ButtonList.button_RemoveButton_list]
      exact List.Nodup.sublist (List.Sublist.map _ (List.filter_sublist _)) hnd
    · intro q
      show q ∈ (ButtonList.RemoveButton st p).list.map KeyButtonPair.key_button
        ↔ q ∈ (ButtonList.RemoveButton st p).live.filter (fun q => decide (q ≠ p))
      rw [ButtonList.button_RemoveButton_list]
      have hl := hlive q
      simp only [List.mem_map, List.mem_filter, decide_eq_true_eq] at hl ⊢
      show _ ↔ q ∈ st.live ∧ q ≠ p
      rw [← hl]
      constructor
      · rintro ⟨a, ⟨ha, hne⟩, rfl⟩
        exact ⟨⟨a, ha, rfl⟩, hne⟩
      · rintro ⟨⟨a, ha, rfl⟩, hne⟩
        exact ⟨a, ⟨ha, hne⟩, rfl⟩
  | press c =>
    simpa [ButtonState.WellFormed, ButtonOp.apply, ButtonFactory.PressKey,
      ButtonList.ChangeButtonStatus_list, ButtonList.ChangeButtonStatus_live] using And.intro hnd hlive
  | release c =>
    simpa [ButtonState.WellFormed, ButtonOp.apply, ButtonFactory.ReleaseKey,
      ButtonList.ChangeButtonStatus_list, ButtonList.ChangeButtonStatus_live] using And.intro hnd hlive
  | changeAll v =>
    simpa [ButtonState.WellFormed, ButtonOp.apply, ButtonList.ChangeAllButtonStatus,
      ButtonList.button_changeAllLoop_list, ButtonList.button_changeAllLoop_live] using And.intro hnd hlive

theorem ButtonState.button_wellFormed_run (ops : List ButtonOp) (st : ButtonState)
    (hwf : st.WellFormed) (hops : ButtonOp.allowedAll st ops = true) :
    (ButtonOp.run st ops).WellFormed := by
  induction ops generalizing st with
  | nil => exact hwf
  | cons op rest ih =>
    simp only [ButtonOp.allowedAll, Bool.and_eq_true] at hops
    exact ih (ButtonOp.apply st op) (ButtonState.button_wellFormed_apply st op hwf hops.1) hops.2

theorem ButtonState.Reachable.button_wellFormed {st : ButtonState} (h : st.Reachable) :
    st.WellFormed := by
  obtain ⟨mem, ops, hops, rfl⟩ := h
  exact ButtonState.button_wellFormed_run ops _ (ButtonState.button_wellFormed_new mem) hops

/-! ### Analog side -/

/-- The loop of `ChangeJoystickStatus` keeps the registration list. -/
theorem AnalogList.analog_changeLoop_list (c : Int) (x y : CFloat) (l : List AnalogPair)
    (s : AnalogState) :
    (l.foldl (fun s pair =>
        if pair.analog_id = c then
          Joystick.y_axis_store (Joystick.x_axis_store s pair.key_button x) pair.key_button y
        else s) s).list = s.list := by
  induction l generalizing s with
  | nil => rfl
  | cons a rest ih =>
    simp only [List.foldl_cons]
    rw [ih]
    split <;> rfl

/-- The loop of `ChangeJoystickStatus` keeps the set of live objects. -/
theorem AnalogList.analog_changeLoop_live (c : Int) (x y : CFloat) (l : List AnalogPair)
    (s : AnalogState) :
    (l.foldl (fun s pair =>
        if pair.analog_id = c then
          Joystick.y_axis_store (Joystick.x_axis_store s pair.key_button x) pair.key_button y
        else s) s).live = s.live := by
  induction l generalizing s with
  | nil => rfl
  | cons a rest ih =>
    simp only [List.foldl_cons]
    rw [ih]
    split <;> rfl

/-- The loop of `ChangeJoystickStatus` leaves `x` in the x cells of the matching
registrations and keeps every other x cell. -/
theorem AnalogList.changeLoop_x_axis (c : Int) (x y : CFloat) (l : List AnalogPair)
    (s : AnalogState) (q : Ptr) :
    (l.foldl (fun s pair =>
        if pair.analog_id = c then
          Joystick.y_axis_store (Joystick.x_axis_store s pair.key_button x) pair.key_button y
        else s) s).x_axis q
      = if l.any (fun pair => decide (pair.analog_id = c ∧ pair.key_button = q)) then x
        else s.x_axis q := by
  induction l generalizing s with
  | nil => simp
  | cons a rest ih =>
    simp only [List.foldl_cons, List.any_cons]
    rw [ih]
    by_cases hr : ∃ p ∈ rest, p.analog_id = c ∧ p.key_button = q
    · simp [hr]
    · by_cases hc : a.analog_id = c
      · by_cases hq : a.key_button = q
        · simp [hr, hc, hq, Joystick.x_axis_store, Joystick.y_axis_store]
        · have hq2 : ¬ q = a.key_button := fun h => hq h.symm
          simp [hr, hc, hq, hq2, Joystick.x_axis_store, Joystick.y_axis_store]
      · simp [hr, hc]

/-- The loop of `ChangeJoystickStatus` leaves `y` in the y cells of the matching
registrations and keeps every other y cell. -/
theorem AnalogList.changeLoop_y_axis (c : Int) (x y : CFloat) (l : List AnalogPair)
    (s : AnalogState) (q : Ptr) :
    (l.foldl (fun s pair =>
        if pair.analog_id = c then
          Joystick.y_axis_store (Joystick.x_axis_store s pair.key_button x) pair.key_button y
        else s) s).y_axis q
      = if l.any (fun pair => decide (pair.analog_id = c ∧ pair.key_button = q)) then y
        else s.y_axis q := by
  induction l generalizing s with
  | nil => simp
  | cons a rest ih =>
    simp only [List.foldl_cons, List.any_cons]
    rw [ih]
    by_cases hr : ∃ p ∈ rest, p.analog_id = c ∧ p.key_button = q
    · simp [hr]
    · by_cases hc : a.analog_id = c
      · by_cases hq : a.key_button = q
        · simp [hr, hc, hq, Joystick.x_axis_store, Joystick.y_axis_store]
        · have hq2 : ¬ q = a.key_button := fun h => hq h.symm
          simp [hr, hc, hq, hq2, Joystick.x_axis_store, Joystick.y_axis_store]
      · simp [hr, hc]

/-- Without a matching registration the loop of `ChangeJoystickStatus` returns
the state it started from. -/
theorem AnalogList.analog_changeLoop_noop (c : Int) (x y : CFloat) (l : List AnalogPair)
    (s : AnalogState) (h : ∀ pair ∈ l, pair.analog_id ≠ c) :
    l.foldl (fun s pair =>
        if pair.analog_id = c then
          Joystick.y_axis_store (Joystick.x_axis_store s pair.key_button x) pair.key_button y
        else s) s = s := by
  induction l generalizing s with
  | nil => rfl
  | cons a rest ih =>
    have ha : a.analog_id ≠ c := h a (List.mem_cons_self a rest)
    simp only [List.foldl_cons, if_neg ha]
    exact ih s (fun pair hp => h pair (List.mem_cons_of_mem a hp))

theorem AnalogList.ChangeJoystickStatus_list (st : AnalogState) (c : Int) (x y : CFloat) :
    (AnalogList.ChangeJoystickStatus st c x y).list = st.list :=
  AnalogList.analog_changeLoop_list c x y st.list st

theorem AnalogList.ChangeJoystickStatus_live (st : AnalogState) (c : Int) (x y : CFloat) :
    (AnalogList.ChangeJoystickStatus st c x y).live = st.live :=
  AnalogList.analog_changeLoop_live c x y st.list st

theorem AnalogList.ChangeJoystickStatus_x_axis (st : AnalogState) (c : Int) (x y : CFloat)
    (q : Ptr) :
    (AnalogList.ChangeJoystickStatus st c x y).x_axis q
      = if st.list.any (fun pair => decide (pair.analog_id = c ∧ pair.key_button = q)) then x
        else st.x_axis q :=
  AnalogList.changeLoop_x_axis c x y st.list st q

theorem AnalogList.ChangeJoystickStatus_y_axis (st : AnalogState) (c : Int) (x y : CFloat)
    (q : Ptr) :
    (AnalogList.ChangeJoystickStatus st c x y).y_axis q
      = if st.list.any (fun pair => decide (pair.analog_id = c ∧ pair.key_button = q)) then y
        else st.y_axis q :=
  AnalogList.changeLoop_y_axis c x y st.list st q

/-- The loop of the analog `ChangeAllButtonStatus` keeps the registration list. -/
theorem AnalogList.analog_changeAllLoop_list (x y : CFloat) (l : List AnalogPair) (s : AnalogState) :
    (l.foldl (fun s pair =>
        Joystick.y_axis_store (Joystick.x_axis_store s pair.key_button x) pair.key_button y)
      s).list = s.list := by
  induction l generalizing s with
  | nil => rfl
  | cons a rest ih =>
    simp only [List.foldl_cons]
    rw [ih]
    rfl

/-- The loop of the analog `ChangeAllButtonStatus` keeps the set of live objects. -/
theorem AnalogList.analog_changeAllLoop_live (x y : CFloat) (l : List AnalogPair) (s : AnalogState) :
    (l.foldl (fun s pair =>
        Joystick.y_axis_store (Joystick.x_axis_store s pair.key_button x) pair.key_button y)
      s).live = s.live := by
  induction l generalizing s with
  | nil => rfl
  | cons a rest ih =>
    simp only [List.foldl_cons]
    rw [ih]
    rfl

theorem AnalogList.analog_RemoveButton_list (st : AnalogState) (h : Ptr) :
    (AnalogList.RemoveButton st h).list
      = st.list.filter (fun pair => decide (pair.key_button ≠ h)) := by
  simp [AnalogList.RemoveButton, remove_if_eq_filter]

theorem AnalogState.analog_wellFormed_new (memx memy : Ptr → CFloat) :
    (AnalogFactory.new memx memy).WellFormed := by
  simp [AnalogState.WellFormed, AnalogFactory.new]

theorem AnalogState.analog_wellFormed_apply (st : AnalogState) (op : AnalogOp)
    (hwf : st.WellFormed) (hop : AnalogOp.allowed st op = true) :
    (AnalogOp.apply st op).WellFormed := by
  obtain ⟨hnd, hlive⟩ := hwf
  cases op with
  | create params p =>
    have hp : p ∉ st.live := by simpa [AnalogOp.allowed] using hop
    have hp2 : p ∉ st.list.map AnalogPair.key_button := fun h => hp ((hlive p).1 h)
    refine ⟨?_, ?_⟩
    · simp only [AnalogOp.apply, AnalogFactory.Create, AnalogList.AddButton,
        Joystick.construct, List.map_append, List.map_cons, List.map_nil]
      exact List.Nodup.append hnd (List.nodup_singleton p)
        (by simpa [List.Disjoint] using hp2)
    · intro q
      simp only [AnalogOp.apply, AnalogFactory.Create, AnalogList.AddButton,
        Joystick.construct, List.map_append, List.map_cons, List.map_nil,
        List.mem_append, List.mem_singleton, List.mem_cons]
      rw [hlive q]
      tauto
  | destroy p =>
    refine ⟨?_, ?_⟩
    · show ((AnalogList.RemoveButton st p).list.map AnalogPair.key_button).Nodup
      rw [AnalogList.analog_RemoveButton_list]
      exact List.Nodup.sublist (List.Sublist.map _ (List.filter_sublist _)) hnd
    · intro q
      show q ∈ (AnalogList.RemoveButton st p).list.map AnalogPair.key_button
        ↔ q ∈ (AnalogList.RemoveButton st p).live.filter (fun q => decide (q ≠ p))
      rw [AnalogList.analog_RemoveButton_list]
      have hl := hlive q
      simp only [List.mem_map, List.mem_filter, decide_eq_true_eq] at hl ⊢
      show _ ↔ q ∈ st.live ∧ q ≠ p
      rw [← hl]
      constructor
      · rintro ⟨a, ⟨ha, hne⟩, rfl⟩
        exact ⟨⟨a, ha, rfl⟩, hne⟩
      · rintro ⟨⟨a, ha, rfl⟩, hne⟩
        exact ⟨a, ⟨ha, hne⟩, rfl⟩
  | move c x y =>
    simpa [AnalogState.WellFormed, AnalogOp.apply, AnalogFactory.MoveJoystick,
      AnalogList.ChangeJoystickStatus_list, AnalogList.ChangeJoystickStatus_live]
      using And.intro hnd hlive
  | changeAll c x y =>
    simpa [AnalogState.WellFormed, AnalogOp.apply, AnalogList.ChangeAllButtonStatus,
      AnalogList.analog_changeAllLoop_list, AnalogList.analog_changeAllLoop_live] using And.intro hnd hlive

theorem AnalogState.analog_wellFormed_run (ops : List AnalogOp) (st : AnalogState)
    (hwf : st.WellFormed) (hops : AnalogOp.allowedAll st ops = true) :
    (AnalogOp.run st ops).WellFormed := by
  induction ops generalizing st with
  | nil => exact hwf
  | cons op rest ih =>
    simp only [AnalogOp.allowedAll, Bool.and_eq_true] at hops
    exact ih (AnalogOp.apply st op) (AnalogState.analog_wellFormed_apply st op hwf hops.1) hops.2

theorem AnalogState.Reachable.analog_wellFormed {st : AnalogState} (h : st.Reachable) :
    st.WellFormed := by
  obtain ⟨memx, memy, ops, hops, rfl⟩ := h
  exact AnalogState.analog_wellFormed_run ops _ (AnalogState.analog_wellFormed_new memx memy) hops

/-- In a well-formed registry the registration of an address is unique. -/
theorem ButtonState.WellFormed.button_unique {st : ButtonState} (hwf : st.WellFormed)
    {a b : KeyButtonPair} (ha : a ∈ st.list) (hb : b ∈ st.list)
    (hab : a.key_button = b.key_button) : a = b :=
  List.inj_on_of_nodup_map hwf.1 ha hb hab

/-- In a well-formed registry the registration of an address is unique. -/
theorem AnalogState.WellFormed.analog_unique {st : AnalogState} (hwf : st.WellFormed)
    {a b : AnalogPair} (ha : a ∈ st.list) (hb : b ∈ st.list)
    (hab : a.key_button = b.key_button) : a = b :=
  List.inj_on_of_nodup_map hwf.1 ha hb hab

/-- An update by code keeps the cell of every address that has no registration
under that code. -/
theorem ButtonList.ChangeButtonStatus_frame (st : ButtonState) (c : Int) (v : Bool) (q : Ptr)
    (h : ∀ pair ∈ st.list, pair.key_button = q → pair.button_id ≠ c) :
    (ButtonList.ChangeButtonStatus st c v).status q = st.status q := by
  rw [ButtonList.ChangeButtonStatus_status]
  have hany : ¬ (st.list.any (fun p => decide (p.button_id = c ∧ p.key_button = q)) = true) := by
    simp only [List.any_eq_true, decide_eq_true_eq]
    rintro ⟨p, hp, hpc, hpq⟩
    exact h p hp hpq hpc
  rw [if_neg hany]

/-- An update by code keeps both cells of every address that has no registration
under that code. -/
theorem AnalogList.ChangeJoystickStatus_frame (st : AnalogState) (c : Int) (x y : CFloat)
    (q : Ptr) (h : ∀ pair ∈ st.list, pair.key_button = q → pair.analog_id ≠ c) :
    (AnalogList.ChangeJoystickStatus st c x y).x_axis q = st.x_axis q ∧
    (AnalogList.ChangeJoystickStatus st c x y).y_axis q = st.y_axis q := by
  rw [AnalogList.ChangeJoystickStatus_x_axis, AnalogList.ChangeJoystickStatus_y_axis]
  have hany : ¬ (st.list.any (fun p => decide (p.analog_id = c ∧ p.key_button = q)) = true) := by
    simp only [List.any_eq_true, decide_eq_true_eq]
    rintro ⟨p, hp, hpc, hpq⟩
    exact h p hp hpq hpc
  rw [if_neg hany, if_neg hany]
  exact ⟨rfl, rfl⟩

theorem remove_if_of_absent {α : Type} (pred : α → Bool) (l : List α)
    (h : ∀ a ∈ l, pred a = false) : remove_if pred l = l := by
  induction l with
  | nil => rfl
  | cons a rest ih =>
    have ha : pred a = false := h a (List.mem_cons_self a rest)
    simp only [remove_if, ha, Bool.false_eq_true, if_false]
    rw [ih (fun b hb => h b (List.mem_cons_of_mem a hb))]

theorem remove_if_absent {α : Type} (pred : α → Bool) (l : List α) :
    ∀ a ∈ remove_if pred l, pred a = false := by
  intro a ha
  rw [remove_if_eq_filter] at ha
  simpa using (List.mem_filter.1 ha).2

/-- The number of registrations of an address is its number of occurrences among
the registered addresses. -/
theorem filter_length_eq_count {α : Type} (f : α → Ptr) (p : Ptr) (l : List α) :
    (l.filter (fun a => decide (f a = p))).length = (l.map f).count p := by
  induction l with
  | nil => rfl
  | cons a rest ih =>
    by_cases h : f a = p
    · simp [List.filter_cons, h, ih]
    · simp [List.filter_cons, h, ih, List.count_cons]

/-- A call that is not an update keeps a cell that holds `false`: a constructor
writes `false`, a destructor writes nothing. -/
theorem ButtonOp.apply_status_false (st : ButtonState) (op : ButtonOp) (p : Ptr)
    (hop : op.isUpdate = false) (h : st.status p = false) :
    (ButtonOp.apply st op).status p = false := by
  cases op with
  | create params q =>
    simp only [ButtonOp.apply, ButtonFactory.Create, ButtonList.AddButton, KeyButton.construct]
    split
    · rfl
    · exact h
  | destroy q => exact h
  | press c => simp [ButtonOp.isUpdate] at hop
  | release c => simp [ButtonOp.isUpdate] at hop
  | changeAll v => simp [ButtonOp.isUpdate] at hop

theorem ButtonOp.run_status_false (ops : List ButtonOp) (st : ButtonState) (p : Ptr)
    (hops : ∀ op ∈ ops, ButtonOp.isUpdate op = false) (h : st.status p = false) :
    (ButtonOp.run st ops).status p = false := by
  induction ops generalizing st with
  | nil => exact h
  | cons op rest ih =>
    exact ih (ButtonOp.apply st op)
      (fun o ho => hops o (List.mem_cons_of_mem op ho))
      (ButtonOp.apply_status_false st op p (hops op (List.mem_cons_self op rest)) h)

/-- A call that is not an update keeps a pair of cells that holds `(0.0, 0.0)`. -/
theorem AnalogOp.apply_axes_zero (st : AnalogState) (op : AnalogOp) (p : Ptr)
    (hop : op.isUpdate = false)
    (h : st.x_axis p = CFloat.zero ∧ st.y_axis p = CFloat.zero) :
    (AnalogOp.apply st op).x_axis p = CFloat.zero ∧
    (AnalogOp.apply st op).y_axis p = CFloat.zero := by
  cases op with
  | create params q =>
    simp only [AnalogOp.apply, AnalogFactory.Create, AnalogList.AddButton, Joystick.construct]
    constructor
    · split
      · rfl
      · exact h.1
    · split
      · rfl
      · exact h.2
  | destroy q => exact h
  | move c x y => simp [AnalogOp.isUpdate] at hop
  | changeAll c x y => simp [AnalogOp.isUpdate] at hop

theorem AnalogOp.run_axes_zero (ops : List AnalogOp) (st : AnalogState) (p : Ptr)
    (hops : ∀ op ∈ ops, AnalogOp.isUpdate op = false)
    (h : st.x_axis p = CFloat.zero ∧ st.y_axis p = CFloat.zero) :
    (AnalogOp.run st ops).x_axis p = CFloat.zero ∧
    (AnalogOp.run st ops).y_axis p = CFloat.zero := by
  induction ops generalizing st with
  | nil => exact h
  | cons op rest ih =>
    exact ih (AnalogOp.apply st op)
      (fun o ho => hops o (List.mem_cons_of_mem op ho))
      (AnalogOp.apply_axes_zero st op p (hops op (List.mem_cons_self op rest)) h)

theorem KeyEvent.apply_eq (st : ButtonState) (e : KeyEvent) :
    KeyEvent.apply st e = ButtonList.ChangeButtonStatus st e.button_id e.pressed := by
  cases e with
  | mk c v => cases v <;> rfl

/-- Last write wins for an address whose registrations all carry the code `c`:
after a sequence of key events the cell holds the value of the last event for
`c`, or what it held before when there is none. -/
theorem KeyEvent.run_status (c : Int) (p : Ptr) (evs : List KeyEvent) (st : ButtonState)
    (hreg : (⟨c, p⟩ : KeyButtonPair) ∈ st.list)
    (honly : ∀ pair ∈ st.list, pair.key_button = p → pair.button_id = c) :
    (evs.foldl KeyEvent.apply st).status p
      = (KeyEvent.lastFor c evs).getD (st.status p) := by
  induction evs generalizing st with
  | nil => rfl
  | cons e rest ih =>
    have hl : (KeyEvent.apply st e).list = st.list := by
      rw [KeyEvent.apply_eq, ButtonList.ChangeButtonStatus_list]
    simp only [List.foldl_cons]
    rw [ih (KeyEvent.apply st e) (by rw [hl]; exact hreg) (by rw [hl]; exact honly)]
    simp only [KeyEvent.lastFor]
    cases hrest : KeyEvent.lastFor c rest with
    | some v => rfl
    | none =>
      by_cases hc : e.button_id = c
      · have hany : st.list.any
            (fun q => decide (q.button_id = e.button_id ∧ q.key_button = p)) = true := by
          simp only [List.any_eq_true, decide_eq_true_eq]
          exact ⟨⟨c, p⟩, hreg, hc.symm, rfl⟩
        simp only [hc, if_true, Option.getD_some, Option.getD_none]
        rw [KeyEvent.apply_eq, ButtonList.ChangeButtonStatus_status, if_pos (hc ▸ hany)]
      · simp only [hc, if_false, Option.getD_none]
        rw [KeyEvent.apply_eq]
        exact ButtonList.ChangeButtonStatus_frame st e.button_id e.pressed p
          (fun pair hp hq h => hc (h.symm.trans (honly pair hp hq)))

/-! ## The claims -/

/-- C1. Digital fan-out: in every registry state and for every code `c`, each
`KeyButton` registered under `c` polls `true` after `PressKey(c)` and `false`
after `ReleaseKey(c)`, however many registrations share the code. -/
theorem digital_fan_out (st : ButtonState) (c : Int) (pair : KeyButtonPair)
    (hreg : pair ∈ st.list) (hcode : pair.button_id = c) :
    KeyButton.GetStatus (ButtonFactory.PressKey st c) pair.key_button = true ∧
    KeyButton.GetStatus (ButtonFactory.ReleaseKey st c) pair.key_button = false := by
  have hany : st.list.any
      (fun p => decide (p.button_id = c ∧ p.key_button = pair.key_button)) = true := by
    simp only [List.any_eq_true, decide_eq_true_eq]
    exact ⟨pair, hreg, hcode, rfl⟩
  constructor
  · simp only [KeyButton.GetStatus, ButtonFactory.PressKey,
      ButtonList.ChangeButtonStatus_status, hany, if_true]
  · simp only [KeyButton.GetStatus, ButtonFactory.ReleaseKey,
      ButtonList.ChangeButtonStatus_status, hany, if_true]

/-- Two handles created under code 42 both poll `true` after `PressKey(42)`, and
both poll `false` after a following `ReleaseKey(42)`. -/
theorem digital_fan_out_witness :
    (KeyButton.GetStatus (ButtonFactory.PressKey twoButtons42 42) 100 = true ∧
      KeyButton.GetStatus (ButtonFactory.PressKey twoButtons42 42) 200 = true) ∧
    (KeyButton.GetStatus
        (ButtonFactory.ReleaseKey (ButtonFactory.PressKey twoButtons42 42) 42) 100 = false ∧
      KeyButton.GetStatus
        (ButtonFactory.ReleaseKey (ButtonFactory.PressKey twoButtons42 42) 42) 200 = false) :=
  ⟨⟨(digital_fan_out twoButtons42 42 ⟨42, 100⟩ (by decide) rfl).1,
    (digital_fan_out twoButtons42 42 ⟨42, 200⟩ (by decide) rfl).1⟩,
   ⟨(digital_fan_out (ButtonFactory.PressKey twoButtons42 42) 42 ⟨42, 100⟩ (by decide) rfl).2,
    (digital_fan_out (ButtonFactory.PressKey twoButtons42 42) 42 ⟨42, 200⟩ (by decide) rfl).2⟩⟩

/-- C2. Analog update: in every registry state, for every code `c` and every pair
`(x, y)`, each `Joystick` registered under `c` polls exactly `(x, y)` after
`MoveJoystick(c, x, y)`. -/
theorem analog_update (st : AnalogState) (c : Int) (x y : CFloat) (pair : AnalogPair)
    (hreg : pair ∈ st.list) (hcode : pair.analog_id = c) :
    Joystick.GetStatus (AnalogFactory.MoveJoystick st c x y) pair.key_button = (x, y) := by
  have hany : st.list.any
      (fun p => decide (p.analog_id = c ∧ p.key_button = pair.key_button)) = true := by
    simp only [List.any_eq_true, decide_eq_true_eq]
    exact ⟨pair, hreg, hcode, rfl⟩
  simp only [Joystick.GetStatus, AnalogFactory.MoveJoystick,
    AnalogList.ChangeJoystickStatus_x_axis, AnalogList.ChangeJoystickStatus_y_axis, hany,
    if_true]

/-- The handle created under code 10 polls `(0.5, -0.75)` after
`MoveJoystick(10, 0.5, -0.75)`. -/
theorem analog_update_witness :
    Joystick.GetStatus
      (AnalogFactory.MoveJoystick twoSticks 10 CFloat.half CFloat.negThreeQuarters) 300
      = (CFloat.half, CFloat.negThreeQuarters) :=
  analog_update twoSticks 10 CFloat.half CFloat.negThreeQuarters ⟨10, 300⟩ (by decide) rfl

/-- C3. Code-scoped frame: in every reachable state and for every code `c`, a
handle registered under a code other than `c` polls the same value after
`PressKey(c)`, `ReleaseKey(c)` (button side) or `MoveJoystick(c, x, y)` (analog
side) as before the call. -/
theorem code_scoped_frame (bst : ButtonState) (ast : AnalogState) (c : Int)
    (hb : bst.Reachable) (ha : ast.Reachable) :
    (∀ pair ∈ bst.list, pair.button_id ≠ c →
      KeyButton.GetStatus (ButtonFactory.PressKey bst c) pair.key_button
        = KeyButton.GetStatus bst pair.key_button ∧
      KeyButton.GetStatus (ButtonFactory.ReleaseKey bst c) pair.key_button
        = KeyButton.GetStatus bst pair.key_button) ∧
    (∀ pair ∈ ast.list, pair.analog_id ≠ c → ∀ x y : CFloat,
      Joystick.GetStatus (AnalogFactory.MoveJoystick ast c x y) pair.key_button
        = Joystick.GetStatus ast pair.key_button) := by
  constructor
  · intro pair hreg hcode
    have hframe : ∀ p ∈ bst.list, p.key_button = pair.key_button → p.button_id ≠ c := by
      intro p hp hpq
      rw [hb.button_wellFormed.button_unique hp hreg hpq]
      exact hcode
    exact ⟨ButtonList.ChangeButtonStatus_frame bst c true pair.key_button hframe,
      ButtonList.ChangeButtonStatus_frame bst c false pair.key_button hframe⟩
  · intro pair hreg hcode x y
    have hframe : ∀ p ∈ ast.list, p.key_button = pair.key_button → p.analog_id ≠ c := by
      intro p hp hpq
      rw [ha.analog_wellFormed.analog_unique hp hreg hpq]
      exact hcode
    have h := AnalogList.ChangeJoystickStatus_frame ast c x y pair.key_button hframe
    simp only [Joystick.GetStatus, AnalogFactory.MoveJoystick, h.1, h.2]

/-- After the sample history, the button handle under code 7 keeps its state
through `PressKey(5)` and `ReleaseKey(5)`; with sticks under codes 10 and 15, the
stick under code 15 keeps its state through `MoveJoystick(10, 0.5, -0.75)`. -/
theorem code_scoped_frame_witness :
    (KeyButton.GetStatus (ButtonFactory.PressKey sampleButtons 5) 3
        = KeyButton.GetStatus sampleButtons 3 ∧
      KeyButton.GetStatus (ButtonFactory.ReleaseKey sampleButtons 5) 3
        = KeyButton.GetStatus sampleButtons 3) ∧
    Joystick.GetStatus
        (AnalogFactory.MoveJoystick twoSticks 10 CFloat.half CFloat.negThreeQuarters) 400
      = Joystick.GetStatus twoSticks 400 :=
  ⟨(code_scoped_frame sampleButtons twoSticks 5
      ⟨fun _ => false, sampleButtonOps, by decide, rfl⟩
      ⟨fun _ => CFloat.one, fun _ => CFloat.one, _, by decide, rfl⟩).1
      ⟨7, 3⟩ (by decide) (by decide),
   (code_scoped_frame sampleButtons twoSticks 10
      ⟨fun _ => false, sampleButtonOps, by decide, rfl⟩
      ⟨fun _ => CFloat.one, fun _ => CFloat.one, _, by decide, rfl⟩).2
      ⟨15, 400⟩ (by decide) (by decide) CFloat.half CFloat.negThreeQuarters⟩

/-- C4. Zero value before any update: the handle returned by
`ButtonFactory::Create` polls `false` and the handle returned by
`AnalogFactory::Create` polls `(0.0, 0.0)`, for every descriptor, every prior
registry state and every following history of calls that contains no update. -/
theorem zero_before_update (bst : ButtonState) (bparams : ParamPackage) (bp : Ptr)
    (bops : List ButtonOp) (ast : AnalogState) (aparams : ParamPackage) (ap : Ptr)
    (aops : List AnalogOp)
    (hb : ∀ op ∈ bops, ButtonOp.isUpdate op = false)
    (ha : ∀ op ∈ aops, AnalogOp.isUpdate op = false) :
    KeyButton.GetStatus (ButtonOp.run (ButtonFactory.Create bst bparams bp) bops) bp = false ∧
    Joystick.GetStatus (AnalogOp.run (AnalogFactory.Create ast aparams ap) aops) ap
      = (CFloat.zero, CFloat.zero) := by
  constructor
  · apply ButtonOp.run_status_false _ _ _ hb
    simp [ButtonFactory.Create, ButtonList.AddButton, KeyButton.construct]
  · have h := AnalogOp.run_axes_zero aops (AnalogFactory.Create ast aparams ap) ap ha
      (by simp [AnalogFactory.Create, AnalogList.AddButton, Joystick.construct])
    simp only [Joystick.GetStatus, h.1, h.2]

/-- A handle created next to two pressed buttons, in memory that held `true`,
polls `false`, also after another handle is created and one is destroyed; a
stick created next to a moved stick polls `(0.0, 0.0)`. -/
theorem zero_before_update_witness :
    KeyButton.GetStatus
      (ButtonOp.run
        (ButtonFactory.Create (ButtonFactory.PressKey twoButtons42 42) (gamepadParams "42") 7)
        [.create (gamepadParams "42") 8, .destroy 100]) 7 = false ∧
    Joystick.GetStatus
      (AnalogOp.run
        (AnalogFactory.Create
          (AnalogFactory.MoveJoystick twoSticks 10 CFloat.half CFloat.negThreeQuarters)
          (gamepadParams "10") 7)
        [.destroy 300]) 7 = (CFloat.zero, CFloat.zero) :=
  zero_before_update (ButtonFactory.PressKey twoButtons42 42) (gamepadParams "42") 7
    [.create (gamepadParams "42") 8, .destroy 100]
    (AnalogFactory.MoveJoystick twoSticks 10 CFloat.half CFloat.negThreeQuarters)
    (gamepadParams "10") 7 [.destroy 300] (by decide) (by decide)

/-- C5. Last write wins: in every reachable state, after any finite sequence
of `PressKey`/`ReleaseKey` events on any codes, a handle registered under code
`c` polls the value of the last event for `c`, or what it polled before when the
sequence has no event for `c`; for a handle created just before the sequence
that value is `false`. -/
theorem last_write_wins (st : ButtonState) (evs : List KeyEvent) (hst : st.Reachable) :
    (∀ pair ∈ st.list,
      KeyButton.GetStatus (evs.foldl KeyEvent.apply st) pair.key_button
        = (KeyEvent.lastFor pair.button_id evs).getD (KeyButton.GetStatus st pair.key_button)) ∧
    (∀ (params : ParamPackage) (p : Ptr), p ∉ st.live →
      KeyButton.GetStatus (evs.foldl KeyEvent.apply (ButtonFactory.Create st params p)) p
        = (KeyEvent.lastFor (params.Get "code" 0) evs).getD false) := by
  have key : ∀ s : ButtonState, s.WellFormed → ∀ pair ∈ s.list,
      (evs.foldl KeyEvent.apply s).status pair.key_button
        = (KeyEvent.lastFor pair.button_id evs).getD (s.status pair.key_button) := by
    intro s hs pair hreg
    apply KeyEvent.run_status pair.button_id pair.key_button evs s hreg
    intro q hq hqp
    rw [hs.button_unique hq hreg hqp]
  constructor
  · exact key st hst.button_wellFormed
  · intro params p hp
    have hwf : (ButtonFactory.Create st params p).WellFormed :=
      ButtonState.button_wellFormed_apply st (.create params p) hst.button_wellFormed
        (by simpa [ButtonOp.allowed] using hp)
    have h := key _ hwf ⟨params.Get "code" 0, p⟩
      (by simp [ButtonFactory.Create, ButtonList.AddButton])
    simp only [KeyButton.GetStatus]
    rw [h]
    simp [ButtonFactory.Create, ButtonList.AddButton, KeyButton.construct]

/-- A handle created under code 5 in memory that held `true` polls `false`,
`true`, `false` after `ReleaseKey(5)`, `PressKey(5)`, `ReleaseKey(5)` in turn, with
presses of another code in between. -/
theorem last_write_wins_witness :
    KeyButton.GetStatus
      ([⟨5, false⟩].foldl KeyEvent.apply
        (ButtonFactory.Create (ButtonFactory.new (fun _ => true)) (gamepadParams "5") 1)) 1
      = false ∧
    KeyButton.GetStatus
      ([⟨5, false⟩, ⟨5, true⟩, ⟨6, false⟩].foldl KeyEvent.apply
        (ButtonFactory.Create (ButtonFactory.new (fun _ => true)) (gamepadParams "5") 1)) 1
      = true ∧
    KeyButton.GetStatus
      ([⟨5, false⟩, ⟨5, true⟩, ⟨6, false⟩, ⟨5, false⟩, ⟨6, true⟩].foldl KeyEvent.apply
        (ButtonFactory.Create (ButtonFactory.new (fun _ => true)) (gamepadParams "5") 1)) 1
      = false :=
  ⟨(last_write_wins (ButtonFactory.new (fun _ => true)) [⟨5, false⟩]
      ⟨fun _ => true, [], by decide, rfl⟩).2 (gamepadParams "5") 1 (by decide),
   (last_write_wins (ButtonFactory.new (fun _ => true)) [⟨5, false⟩, ⟨5, true⟩, ⟨6, false⟩]
      ⟨fun _ => true, [], by decide, rfl⟩).2 (gamepadParams "5") 1 (by decide),
   (last_write_wins (ButtonFactory.new (fun _ => true))
      [⟨5, false⟩, ⟨5, true⟩, ⟨6, false⟩, ⟨5, false⟩, ⟨6, true⟩]
      ⟨fun _ => true, [], by decide, rfl⟩).2 (gamepadParams "5") 1 (by decide)⟩

/-- C6. Unknown code is a silent no-op: when no registration carries the code,
`ChangeButtonStatus` (resp. `ChangeJoystickStatus`) returns the registry state it
was called in: same registration list, same state of every handle. -/
theorem unknown_code_noop (bst : ButtonState) (cb : Int) (v : Bool) (ast : AnalogState)
    (ca : Int) (x y : CFloat)
    (hb : ∀ pair ∈ bst.list, pair.button_id ≠ cb)
    (ha : ∀ pair ∈ ast.list, pair.analog_id ≠ ca) :
    ButtonList.ChangeButtonStatus bst cb v = bst ∧
    AnalogList.ChangeJoystickStatus ast ca x y = ast :=
  ⟨ButtonList.button_changeLoop_noop cb v bst.list bst hb,
   AnalogList.analog_changeLoop_noop ca x y ast.list ast ha⟩

/-- With buttons under code 42 only and sticks under codes 10 and 15 only, an
update for button code 7 and one for stick code 11 change nothing. -/
theorem unknown_code_noop_witness :
    ButtonList.ChangeButtonStatus twoButtons42 7 false = twoButtons42 ∧
    AnalogList.ChangeJoystickStatus twoSticks 11 CFloat.half CFloat.negThreeQuarters
      = twoSticks :=
  unknown_code_noop twoButtons42 7 false twoSticks 11 CFloat.half CFloat.negThreeQuarters
    (by decide) (by decide)

/-- C7. Remove postcondition: after `RemoveButton(h)` no registration references
`h`, and the list is the list before the call with the registrations of `h`
left out: the registrations of the other handles, with their codes, in their
order. Holds for both registries. -/
theorem remove_postcondition (bst : ButtonState) (ast : AnalogState) (h : Ptr) :
    ((∀ pair ∈ (ButtonList.RemoveButton bst h).list, pair.key_button ≠ h) ∧
      (ButtonList.RemoveButton bst h).list
        = bst.list.filter (fun pair => decide (pair.key_button ≠ h))) ∧
    ((∀ pair ∈ (AnalogList.RemoveButton ast h).list, pair.key_button ≠ h) ∧
      (AnalogList.RemoveButton ast h).list
        = ast.list.filter (fun pair => decide (pair.key_button ≠ h))) := by
  refine ⟨⟨?_, ButtonList.button_RemoveButton_list bst h⟩, ⟨?_, AnalogList.analog_RemoveButton_list ast h⟩⟩
  · intro pair hp
    rw [ButtonList.button_RemoveButton_list] at hp
    simpa using (List.mem_filter.1 hp).2
  · intro pair hp
    rw [AnalogList.analog_RemoveButton_list] at hp
    simpa using (List.mem_filter.1 hp).2

/-- C8. Remove is idempotent: `RemoveButton(h)` on a registry without a
registration of `h` returns the registry unchanged, and a second
`RemoveButton(h)` changes nothing after the first. Holds for both registries. -/
theorem remove_idempotent (bst : ButtonState) (ast : AnalogState) (h : Ptr) :
    (((∀ pair ∈ bst.list, pair.key_button ≠ h) → ButtonList.RemoveButton bst h = bst) ∧
      ButtonList.RemoveButton (ButtonList.RemoveButton bst h) h
        = ButtonList.RemoveButton bst h) ∧
    (((∀ pair ∈ ast.list, pair.key_button ≠ h) → AnalogList.RemoveButton ast h = ast) ∧
      AnalogList.RemoveButton (AnalogList.RemoveButton ast h) h
        = AnalogList.RemoveButton ast h) := by
  have hb : ∀ s : ButtonState, (∀ pair ∈ s.list, pair.key_button ≠ h) →
      ButtonList.RemoveButton s h = s := by
    intro s hs
    have hl : remove_if (fun pair : KeyButtonPair => decide (pair.key_button = h)) s.list
        = s.list :=
      remove_if_of_absent _ _ (fun a ha => by simpa using hs a ha)
    simp only [ButtonList.RemoveButton, hl]
  have ha : ∀ s : AnalogState, (∀ pair ∈ s.list, pair.key_button ≠ h) →
      AnalogList.RemoveButton s h = s := by
    intro s hs
    have hl : remove_if (fun pair : AnalogPair => decide (pair.key_button = h)) s.list
        = s.list :=
      remove_if_of_absent _ _ (fun a ha => by simpa using hs a ha)
    simp only [AnalogList.RemoveButton, hl]
  refine ⟨⟨hb bst, hb _ ?_⟩, ⟨ha ast, ha _ ?_⟩⟩
  · intro pair hp
    simpa using remove_if_absent _ _ pair hp
  · intro pair hp
    simpa using remove_if_absent _ _ pair hp

/-- Address 100 holds no handle after the sample history, so `RemoveButton(100)`
returns the sample registry; address 9 holds no stick, so the analog
`RemoveButton(9)` returns the two-stick registry. -/
theorem remove_idempotent_witness :
    ButtonList.RemoveButton sampleButtons 100 = sampleButtons ∧
    AnalogList.RemoveButton twoSticks 9 = twoSticks :=
  ⟨(remove_idempotent sampleButtons twoSticks 100).1.1 (by decide),
   (remove_idempotent twoButtons42 twoSticks 9).2.1 (by decide)⟩

/-- C9. No stale registrations: in every state reachable from an empty registry
by creations, destructions and updates, the handles referenced by the
registrations are exactly the handles created and not yet destroyed; an update
by code writes to no address outside that set, and after the destruction of a
handle an update for any code (its former one included) leaves its address
untouched. Holds for both registries. -/
theorem no_stale_registrations (bst : ButtonState) (ast : AnalogState)
    (hb : bst.Reachable) (ha : ast.Reachable) :
    ((∀ p, (∃ pair ∈ bst.list, pair.key_button = p) ↔ p ∈ bst.live) ∧
      (∀ (c : Int) (v : Bool) (p : Ptr), p ∉ bst.live →
        KeyButton.GetStatus (ButtonList.ChangeButtonStatus bst c v) p
          = KeyButton.GetStatus bst p) ∧
      (∀ (c : Int) (v : Bool) (p : Ptr),
        KeyButton.GetStatus (ButtonList.ChangeButtonStatus (KeyButton.destroy bst p) c v) p
          = KeyButton.GetStatus bst p)) ∧
    ((∀ p, (∃ pair ∈ ast.list, pair.key_button = p) ↔ p ∈ ast.live) ∧
      (∀ (c : Int) (x y : CFloat) (p : Ptr), p ∉ ast.live →
        Joystick.GetStatus (AnalogList.ChangeJoystickStatus ast c x y) p
          = Joystick.GetStatus ast p) ∧
      (∀ (c : Int) (x y : CFloat) (p : Ptr),
        Joystick.GetStatus (AnalogList.ChangeJoystickStatus (Joystick.destroy ast p) c x y) p
          = Joystick.GetStatus ast p)) := by
  have hbl : ∀ p, (∃ pair ∈ bst.list, pair.key_button = p) ↔ p ∈ bst.live := by
    intro p
    rw [← hb.button_wellFormed.2 p]
    simp [List.mem_map]
  have hal : ∀ p, (∃ pair ∈ ast.list, pair.key_button = p) ↔ p ∈ ast.live := by
    intro p
    rw [← ha.analog_wellFormed.2 p]
    simp [List.mem_map]
  refine ⟨⟨hbl, ?_, ?_⟩, ⟨hal, ?_, ?_⟩⟩
  · intro c v p hp
    exact ButtonList.ChangeButtonStatus_frame bst c v p
      (fun pair hpair hq _ => hp ((hbl p).1 ⟨pair, hpair, hq⟩))
  · intro c v p
    have h := ButtonList.ChangeButtonStatus_frame (KeyButton.destroy bst p) c v p
      (fun pair hpair hq _ => by
        have hm : pair ∈ (ButtonList.RemoveButton bst p).list := hpair
        rw [ButtonList.button_RemoveButton_list] at hm
        have hne : pair.key_button ≠ p := by simpa using (List.mem_filter.1 hm).2
        exact hne hq)
    exact h
  · intro c x y p hp
    have h := AnalogList.ChangeJoystickStatus_frame ast c x y p
      (fun pair hpair hq _ => hp ((hal p).1 ⟨pair, hpair, hq⟩))
    simp only [Joystick.GetStatus, h.1, h.2]
  · intro c x y p
    have h := AnalogList.ChangeJoystickStatus_frame (Joystick.destroy ast p) c x y p
      (fun pair hpair hq _ => by
        have hm : pair ∈ (AnalogList.RemoveButton ast p).list := hpair
        rw [AnalogList.analog_RemoveButton_list] at hm
        have hne : pair.key_button ≠ p := by simpa using (List.mem_filter.1 hm).2
        exact hne hq)
    simp only [Joystick.GetStatus, h.1, h.2]
    rfl

/-- After the sample histories the button registry references the addresses 2
and 3 (the handle at 1 was destroyed) and an update for code 5, the former
code of the destroyed handle, leaves address 1 untouched; the analog
registry references address 400 only. -/
theorem no_stale_registrations_witness :
    (((∃ pair ∈ sampleButtons.list, pair.key_button = 1) ↔ 1 ∈ sampleButtons.live) ∧
      KeyButton.GetStatus (ButtonList.ChangeButtonStatus sampleButtons 5 true) 1
        = KeyButton.GetStatus sampleButtons 1) ∧
    ((∃ pair ∈ sampleSticks.list, pair.key_button = 400) ↔ 400 ∈ sampleSticks.live) :=
  ⟨⟨(no_stale_registrations sampleButtons sampleSticks
        ⟨fun _ => false, sampleButtonOps, by decide, rfl⟩
        ⟨fun _ => CFloat.zero, fun _ => CFloat.zero, sampleAnalogOps, by decide, rfl⟩).1.1 1,
     (no_stale_registrations sampleButtons sampleSticks
        ⟨fun _ => false, sampleButtonOps, by decide, rfl⟩
        ⟨fun _ => CFloat.zero, fun _ => CFloat.zero, sampleAnalogOps, by decide, rfl⟩).1.2.1
        5 true 1 (by decide)⟩,
   (no_stale_registrations sampleButtons sampleSticks
      ⟨fun _ => false, sampleButtonOps, by decide, rfl⟩
      ⟨fun _ => CFloat.zero, fun _ => CFloat.zero, sampleAnalogOps, by decide, rfl⟩).2.1 400⟩

/-- C10. At most one registration per handle: in every state reachable from an
empty registry by creations, destructions and updates, each address is
referenced by at most one registration, and all registrations of an address
carry the same code. Holds for both registries. -/
theorem one_registration_per_handle (bst : ButtonState) (ast : AnalogState)
    (hb : bst.Reachable) (ha : ast.Reachable) :
    ((∀ p, (bst.list.filter (fun pair => decide (pair.key_button = p))).length ≤ 1) ∧
      (∀ a ∈ bst.list, ∀ b ∈ bst.list, a.key_button = b.key_button →
        a.button_id = b.button_id)) ∧
    ((∀ p, (ast.list.filter (fun pair => decide (pair.key_button = p))).length ≤ 1) ∧
      (∀ a ∈ ast.list, ∀ b ∈ ast.list, a.key_button = b.key_button →
        a.analog_id = b.analog_id)) := by
  refine ⟨⟨?_, ?_⟩, ⟨?_, ?_⟩⟩
  · intro p
    rw [filter_length_eq_count]
    exact List.nodup_iff_count_le_one.1 hb.button_wellFormed.1 p
  · intro a ha1 b hb1 hab
    rw [hb.button_wellFormed.button_unique ha1 hb1 hab]
  · intro p
    rw [filter_length_eq_count]
    exact List.nodup_iff_count_le_one.1 ha.analog_wellFormed.1 p
  · intro a ha1 b hb1 hab
    rw [ha.analog_wellFormed.analog_unique ha1 hb1 hab]

/-- After the sample histories address 2 has at most one button registration and
address 400 at most one analog registration. -/
theorem one_registration_per_handle_witness :
    (sampleButtons.list.filter (fun pair => decide (pair.key_button = 2))).length ≤ 1 ∧
    (sampleSticks.list.filter (fun pair => decide (pair.key_button = 400))).length ≤ 1 :=
  ⟨(one_registration_per_handle sampleButtons sampleSticks
      ⟨fun _ => false, sampleButtonOps, by decide, rfl⟩
      ⟨fun _ => CFloat.zero, fun _ => CFloat.zero, sampleAnalogOps, by decide, rfl⟩).1.1 2,
   (one_registration_per_handle sampleButtons sampleSticks
      ⟨fun _ => false, sampleButtonOps, by decide, rfl⟩
      ⟨fun _ => CFloat.zero, fun _ => CFloat.zero, sampleAnalogOps, by decide, rfl⟩).2.1 400⟩

/-! ## Further auxiliary facts -/

/-- The loop of the analog `ChangeAllButtonStatus` leaves `x` in the x cell of
every registration and keeps every other x cell. -/
theorem AnalogList.changeAllLoop_x_axis (x y : CFloat) (l : List AnalogPair) (s : AnalogState)
    (q : Ptr) :
    (l.foldl (fun s pair =>
        Joystick.y_axis_store (Joystick.x_axis_store s pair.key_button x) pair.key_button y)
      s).x_axis q
      = if l.any (fun pair => decide (pair.key_button = q)) then x else s.x_axis q := by
  induction l generalizing s with
  | nil => simp
  | cons a rest ih =>
    simp only [List.foldl_cons, List.any_cons]
    rw [ih]
    by_cases hr : ∃ p ∈ rest, p.key_button = q
    · simp [hr]
    · by_cases hq : a.key_button = q
      · simp [hr, hq, Joystick.x_axis_store, Joystick.y_axis_store]
      · have hq2 : ¬ q = a.key_button := fun h => hq h.symm
        simp [hr, hq, hq2, Joystick.x_axis_store, Joystick.y_axis_store]

/-- The loop of the analog `ChangeAllButtonStatus` leaves `y` in the y cell of
every registration and keeps every other y cell. -/
theorem AnalogList.changeAllLoop_y_axis (x y : CFloat) (l : List AnalogPair) (s : AnalogState)
    (q : Ptr) :
    (l.foldl (fun s pair =>
        Joystick.y_axis_store (Joystick.x_axis_store s pair.key_button x) pair.key_button y)
      s).y_axis q
      = if l.any (fun pair => decide (pair.key_button = q)) then y else s.y_axis q := by
  induction l generalizing s with
  | nil => simp
  | cons a rest ih =>
    simp only [List.foldl_cons, List.any_cons]
    rw [ih]
    by_cases hr : ∃ p ∈ rest, p.key_button = q
    · simp [hr]
    · by_cases hq : a.key_button = q
      · simp [hr, hq, Joystick.x_axis_store, Joystick.y_axis_store]
      · have hq2 : ¬ q = a.key_button := fun h => hq h.symm
        simp [hr, hq, hq2, Joystick.x_axis_store, Joystick.y_axis_store]

/-- Analog events on other codes keep both cells of an address whose
registrations all carry the code `c`. -/
theorem MoveEvent.run_frame (c : Int) (p : Ptr) (evs : List MoveEvent) (st : AnalogState)
    (honly : ∀ pair ∈ st.list, pair.key_button = p → pair.analog_id = c)
    (hevs : ∀ e ∈ evs, e.analog_id ≠ c) :
    (evs.foldl MoveEvent.apply st).list = st.list ∧
    (evs.foldl MoveEvent.apply st).x_axis p = st.x_axis p ∧
    (evs.foldl MoveEvent.apply st).y_axis p = st.y_axis p := by
  induction evs generalizing st with
  | nil => exact ⟨rfl, rfl, rfl⟩
  | cons e rest ih =>
    have hl : (MoveEvent.apply st e).list = st.list :=
      AnalogList.ChangeJoystickStatus_list st e.analog_id e.x e.y
    have he : e.analog_id ≠ c := hevs e (List.mem_cons_self e rest)
    have hf := AnalogList.ChangeJoystickStatus_frame st e.analog_id e.x e.y p
      (fun pair hp hq h => he (h.symm.trans (honly pair hp hq)))
    have h := ih (MoveEvent.apply st e) (by rw [hl]; exact honly)
      (fun e2 he2 => hevs e2 (List.mem_cons_of_mem e he2))
    simp only [List.foldl_cons]
    refine ⟨h.1.trans hl, h.2.1.trans hf.1, h.2.2.trans hf.2⟩

/-- Key events on other codes keep the registration list. -/
theorem KeyEvent.run_list (evs : List KeyEvent) (st : ButtonState) :
    (evs.foldl KeyEvent.apply st).list = st.list := by
  induction evs generalizing st with
  | nil => rfl
  | cons e rest ih =>
    simp only [List.foldl_cons]
    rw [ih, KeyEvent.apply_eq, ButtonList.ChangeButtonStatus_list]

/-- No event of the sequence carries the code, so there is no last one. -/
theorem KeyEvent.lastFor_none (c : Int) (evs : List KeyEvent)
    (h : ∀ e ∈ evs, e.button_id ≠ c) : KeyEvent.lastFor c evs = none := by
  induction evs with
  | nil => rfl
  | cons e rest ih =>
    simp only [KeyEvent.lastFor, ih (fun e2 he2 => h e2 (List.mem_cons_of_mem e he2)),
      if_neg (h e (List.mem_cons_self e rest))]

/-! ## The claims, continued -/

/-- C11. Create postcondition: for every descriptor and registry state, `Create`
appends exactly one registration, which pairs the new handle with the code read
from the `code` field; the registrations present before stay, each with its
code and in its place; the handles at the other addresses poll what they polled
before. The functions are total: the call cannot fail. Holds for both
factories. -/
theorem create_postcondition (bst : ButtonState) (ast : AnalogState) (params : ParamPackage)
    (p : Ptr) :
    ((ButtonFactory.Create bst params p).list
        = bst.list ++ [⟨params.Get "code" 0, p⟩] ∧
      (∀ q, q ≠ p →
        KeyButton.GetStatus (ButtonFactory.Create bst params p) q = KeyButton.GetStatus bst q)) ∧
    ((AnalogFactory.Create ast params p).list
        = ast.list ++ [⟨params.Get "code" 0, p⟩] ∧
      (∀ q, q ≠ p →
        Joystick.GetStatus (AnalogFactory.Create ast params p) q = Joystick.GetStatus ast q)) := by
  refine ⟨⟨rfl, ?_⟩, ⟨rfl, ?_⟩⟩
  · intro q hq
    simp [KeyButton.GetStatus, ButtonFactory.Create, ButtonList.AddButton,
      KeyButton.construct, hq]
  · intro q hq
    simp [Joystick.GetStatus, AnalogFactory.Create, AnalogList.AddButton,
      Joystick.construct, hq]

/-- A third handle created under code 42 next to two pressed ones leaves them
pressed, and a third stick leaves a moved stick where it was. -/
theorem create_postcondition_witness :
    KeyButton.GetStatus
        (ButtonFactory.Create (ButtonFactory.PressKey twoButtons42 42) (gamepadParams "42") 7) 100
      = true ∧
    Joystick.GetStatus
        (AnalogFactory.Create
          (AnalogFactory.MoveJoystick twoSticks 10 CFloat.half CFloat.negThreeQuarters)
          (gamepadParams "10") 7) 300
      = (CFloat.half, CFloat.negThreeQuarters) :=
  ⟨(create_postcondition (ButtonFactory.PressKey twoButtons42 42) twoSticks
      (gamepadParams "42") 7).1.2 100 (by decide),
   (create_postcondition twoButtons42
      (AnalogFactory.MoveJoystick twoSticks 10 CFloat.half CFloat.negThreeQuarters)
      (gamepadParams "10") 7).2.2 300 (by decide)⟩

/-- C12. Default code 0: for a descriptor whose `code` key is absent, or whose
`code` value is not a well-formed integer, both `Create` functions register the
new handle under code 0. In a reachable state the new handle polls the zero
value through any sequence of updates for other codes, and an update for code 0
issued after them is what it polls next. -/
theorem default_code_zero (bst : ButtonState) (ast : AnalogState) (params : ParamPackage)
    (pb pa : Ptr) (evs : List KeyEvent) (v : Bool) (mevs : List MoveEvent) (x y : CFloat)
    (hcode : params.data.lookup "code" = none ∨
      ∃ value, params.data.lookup "code" = some value ∧ parseInt value.data = none)
    (hb : bst.Reachable) (hpb : pb ∉ bst.live) (ha : ast.Reachable) (hpa : pa ∉ ast.live)
    (hevs : ∀ e ∈ evs, e.button_id ≠ 0) (hmevs : ∀ e ∈ mevs, e.analog_id ≠ 0) :
    ((ButtonFactory.Create bst params pb).list = bst.list ++ [⟨0, pb⟩] ∧
      KeyButton.GetStatus (evs.foldl KeyEvent.apply (ButtonFactory.Create bst params pb)) pb
        = false ∧
      KeyButton.GetStatus
        (ButtonList.ChangeButtonStatus
          (evs.foldl KeyEvent.apply (ButtonFactory.Create bst params pb)) 0 v) pb = v) ∧
    ((AnalogFactory.Create ast params pa).list = ast.list ++ [⟨0, pa⟩] ∧
      Joystick.GetStatus (mevs.foldl MoveEvent.apply (AnalogFactory.Create ast params pa)) pa
        = (CFloat.zero, CFloat.zero) ∧
      Joystick.GetStatus
        (AnalogList.ChangeJoystickStatus
          (mevs.foldl MoveEvent.apply (AnalogFactory.Create ast params pa)) 0 x y) pa
        = (x, y)) := by
  have hget : params.Get "code" 0 = 0 := by
    rcases hcode with h | ⟨value, h, hv⟩
    · simp [ParamPackage.Get, h]
    · simp [ParamPackage.Get, h, hv]
  have hbl : (ButtonFactory.Create bst params pb).list = bst.list ++ [⟨0, pb⟩] := by
    simp [ButtonFactory.Create, ButtonList.AddButton, KeyButton.construct, hget]
  have hal : (AnalogFactory.Create ast params pa).list = ast.list ++ [⟨0, pa⟩] := by
    simp [AnalogFactory.Create, AnalogList.AddButton, Joystick.construct, hget]
  have hbwf : (ButtonFactory.Create bst params pb).WellFormed :=
    ButtonState.button_wellFormed_apply bst (.create params pb) hb.button_wellFormed
      (by simpa [ButtonOp.allowed] using hpb)
  have hawf : (AnalogFactory.Create ast params pa).WellFormed :=
    AnalogState.analog_wellFormed_apply ast (.create params pa) ha.analog_wellFormed
      (by simpa [AnalogOp.allowed] using hpa)
  have hbreg : (⟨0, pb⟩ : KeyButtonPair) ∈ (ButtonFactory.Create bst params pb).list := by
    rw [hbl]; simp
  have hareg : (⟨0, pa⟩ : AnalogPair) ∈ (AnalogFactory.Create ast params pa).list := by
    rw [hal]; simp
  refine ⟨⟨hbl, ?_, ?_⟩, ⟨hal, ?_, ?_⟩⟩
  · have h := KeyEvent.run_status 0 pb evs (ButtonFactory.Create bst params pb) hbreg
      (fun pair hp hq => by rw [hbwf.button_unique hp hbreg hq])
    simp only [KeyButton.GetStatus]
    rw [h, KeyEvent.lastFor_none 0 evs hevs]
    simp [ButtonFactory.Create, ButtonList.AddButton, KeyButton.construct]
  · simp only [KeyButton.GetStatus]
    rw [ButtonList.ChangeButtonStatus_status, if_pos]
    simp only [List.any_eq_true, decide_eq_true_eq]
    exact ⟨⟨0, pb⟩, by rw [KeyEvent.run_list]; exact hbreg, rfl, rfl⟩
  · have h := MoveEvent.run_frame 0 pa mevs (AnalogFactory.Create ast params pa)
      (fun pair hp hq => by rw [hawf.analog_unique hp hareg hq]) hmevs
    simp only [Joystick.GetStatus, h.2.1, h.2.2]
    simp [AnalogFactory.Create, AnalogList.AddButton, Joystick.construct]
  · have h := MoveEvent.run_frame 0 pa mevs (AnalogFactory.Create ast params pa)
      (fun pair hp hq => by rw [hawf.analog_unique hp hareg hq]) hmevs
    have hany : (mevs.foldl MoveEvent.apply (AnalogFactory.Create ast params pa)).list.any
        (fun q => decide (q.analog_id = 0 ∧ q.key_button = pa)) = true := by
      simp only [List.any_eq_true, decide_eq_true_eq]
      exact ⟨⟨0, pa⟩, by rw [h.1]; exact hareg, rfl, rfl⟩
    simp only [Joystick.GetStatus, AnalogList.ChangeJoystickStatus_x_axis,
      AnalogList.ChangeJoystickStatus_y_axis, hany, if_true]

/-- A descriptor without `code` key: the handle created next to the two buttons
under code 42 is registered under code 0, polls `false` after `PressKey(42)`, and
polls `true` after a following update for code 0; likewise for a stick. -/
theorem default_code_zero_witness :
    ((ButtonFactory.Create twoButtons42 paramsWithoutCode 7).list
        = twoButtons42.list ++ [⟨0, 7⟩] ∧
      KeyButton.GetStatus
        ([⟨42, true⟩].foldl KeyEvent.apply
          (ButtonFactory.Create twoButtons42 paramsWithoutCode 7)) 7 = false ∧
      KeyButton.GetStatus
        (ButtonList.ChangeButtonStatus
          ([⟨42, true⟩].foldl KeyEvent.apply
            (ButtonFactory.Create twoButtons42 paramsWithoutCode 7)) 0 true) 7 = true) ∧
    ((AnalogFactory.Create twoSticks paramsWithoutCode 7).list
        = twoSticks.list ++ [⟨0, 7⟩] ∧
      Joystick.GetStatus
        ([⟨10, CFloat.one, CFloat.one⟩].foldl MoveEvent.apply
          (AnalogFactory.Create twoSticks paramsWithoutCode 7)) 7
        = (CFloat.zero, CFloat.zero) ∧
      Joystick.GetStatus
        (AnalogList.ChangeJoystickStatus
          ([⟨10, CFloat.one, CFloat.one⟩].foldl MoveEvent.apply
            (AnalogFactory.Create twoSticks paramsWithoutCode 7)) 0
          CFloat.half CFloat.negThreeQuarters) 7
        = (CFloat.half, CFloat.negThreeQuarters)) :=
  default_code_zero twoButtons42 twoSticks paramsWithoutCode 7 7 [⟨42, true⟩] true
    [⟨10, CFloat.one, CFloat.one⟩] CFloat.half CFloat.negThreeQuarters
    (Or.inl (by decide))
    ⟨fun _ => true, _, by decide, rfl⟩ (by decide)
    ⟨fun _ => CFloat.one, fun _ => CFloat.one, _, by decide, rfl⟩ (by decide)
    (by decide) (by decide)

/-- C13, as stated, fails: with sticks under codes 10 and 15,
`ChangeAllButtonStatus(10, 0.5, -0.75)` changes the stick registered under
code 15. -/
theorem update_all_not_code_scoped :
    ¬ (∀ pair ∈ twoSticks.list, pair.analog_id ≠ 10 →
        Joystick.GetStatus
          (AnalogList.ChangeAllButtonStatus twoSticks 10 CFloat.half CFloat.negThreeQuarters)
          pair.key_button
        = Joystick.GetStatus twoSticks pair.key_button) := by
  intro h
  have h400 := h ⟨15, 400⟩ (by decide) (by decide)
  revert h400
  decide

/-- C13, amended. The analog `ChangeAllButtonStatus(analog_id, x, y)` never reads
`analog_id`: it keeps the registration list, sets `(x, y)` on every registered
`Joystick` whatever its code, and keeps the cells of the addresses that have no
registration. -/
theorem update_all_writes_every_stick (st : AnalogState) (analog_id : Int) (x y : CFloat) :
    (AnalogList.ChangeAllButtonStatus st analog_id x y).list = st.list ∧
    (∀ pair ∈ st.list,
      Joystick.GetStatus (AnalogList.ChangeAllButtonStatus st analog_id x y) pair.key_button
        = (x, y)) ∧
    (∀ q, (∀ pair ∈ st.list, pair.key_button ≠ q) →
      Joystick.GetStatus (AnalogList.ChangeAllButtonStatus st analog_id x y) q
        = Joystick.GetStatus st q) := by
  refine ⟨AnalogList.analog_changeAllLoop_list x y st.list st, ?_, ?_⟩
  · intro pair hp
    have hany : st.list.any (fun q => decide (q.key_button = pair.key_button)) = true := by
      simp only [List.any_eq_true, decide_eq_true_eq]
      exact ⟨pair, hp, rfl⟩
    simp only [Joystick.GetStatus, AnalogList.ChangeAllButtonStatus,
      AnalogList.changeAllLoop_x_axis, AnalogList.changeAllLoop_y_axis, hany, if_true]
  · intro q hq
    have hany : ¬ (st.list.any (fun r => decide (r.key_button = q)) = true) := by
      simp only [List.any_eq_true, decide_eq_true_eq]
      rintro ⟨r, hr, hrq⟩
      exact hq r hr hrq
    simp only [Joystick.GetStatus, AnalogList.ChangeAllButtonStatus,
      AnalogList.changeAllLoop_x_axis, AnalogList.changeAllLoop_y_axis, if_neg hany]

/-- With sticks under codes 10 and 15, `ChangeAllButtonStatus(10, 0.5, -0.75)`
sets both sticks to `(0.5, -0.75)` and leaves address 9, which holds no stick,
as it was. -/
theorem update_all_writes_every_stick_witness :
    (Joystick.GetStatus
        (AnalogList.ChangeAllButtonStatus twoSticks 10 CFloat.half CFloat.negThreeQuarters) 300
        = (CFloat.half, CFloat.negThreeQuarters) ∧
      Joystick.GetStatus
        (AnalogList.ChangeAllButtonStatus twoSticks 10 CFloat.half CFloat.negThreeQuarters) 400
        = (CFloat.half, CFloat.negThreeQuarters)) ∧
    Joystick.GetStatus
        (AnalogList.ChangeAllButtonStatus twoSticks 10 CFloat.half CFloat.negThreeQuarters) 9
      = Joystick.GetStatus twoSticks 9 :=
  ⟨⟨(update_all_writes_every_stick twoSticks 10 CFloat.half CFloat.negThreeQuarters).2.1
        ⟨10, 300⟩ (by decide),
    (update_all_writes_every_stick twoSticks 10 CFloat.half CFloat.negThreeQuarters).2.1
        ⟨15, 400⟩ (by decide)⟩,
   (update_all_writes_every_stick twoSticks 10 CFloat.half CFloat.negThreeQuarters).2.2 9 (by decide)⟩

/-! ### Decimal rendering and reading -/

theorem digitChar_value_isDigit :
    ∀ d, d < 10 → ((Nat.digitChar d).toNat - 48 = d ∧ (Nat.digitChar d).isDigit = true) := by
  decide

/-- The digits written for `n` in front of `acc` read back as `n`, continued
with `acc`. -/
theorem toDigitsCore_value (fuel : Nat) : ∀ (n : Nat) (acc : List Char), n < fuel →
    (Nat.toDigitsCore 10 fuel n acc).foldl (fun a c => 10 * a + (c.toNat - 48)) 0
      = acc.foldl (fun a c => 10 * a + (c.toNat - 48)) n := by
  induction fuel with
  | zero => intro n acc h; omega
  | succ fuel ih =>
    intro n acc h
    have hd := (digitChar_value_isDigit (n % 10) (Nat.mod_lt n (by decide))).1
    simp only [Nat.toDigitsCore]
    split
    · rename_i h0
      have hn : n % 10 = n := by omega
      simp only [List.foldl_cons, Nat.mul_zero, Nat.zero_add]
      rw [hd, hn]
    · rename_i h0
      rw [ih (n / 10) _ (by omega)]
      simp only [List.foldl_cons, hd]
      congr 1
      omega

theorem toDigitsCore_all_isDigit (fuel : Nat) : ∀ (n : Nat) (acc : List Char),
    acc.all Char.isDigit = true →
    (Nat.toDigitsCore 10 fuel n acc).all Char.isDigit = true := by
  induction fuel with
  | zero => intro n acc h; simpa [Nat.toDigitsCore] using h
  | succ fuel ih =>
    intro n acc h
    have hd := (digitChar_value_isDigit (n % 10) (Nat.mod_lt n (by decide))).2
    simp only [Nat.toDigitsCore]
    split
    · simp only [List.all_cons, hd, h, Bool.and_self]
    · exact ih _ _ (by simp only [List.all_cons, hd, h, Bool.and_self])

theorem toDigitsCore_ne_nil (fuel : Nat) : ∀ (n : Nat) (acc : List Char),
    acc ≠ [] → Nat.toDigitsCore 10 fuel n acc ≠ [] := by
  induction fuel with
  | zero => intro n acc h; simpa [Nat.toDigitsCore] using h
  | succ fuel ih =>
    intro n acc _
    simp only [Nat.toDigitsCore]
    split
    · exact List.cons_ne_nil _ _
    · exact ih _ _ (List.cons_ne_nil _ _)

theorem digitsValue_toDigits (n : Nat) : digitsValue (Nat.toDigits 10 n) = n := by
  simp only [digitsValue, Nat.toDigits]
  rw [toDigitsCore_value (n + 1) n [] (Nat.lt_succ_self n)]
  rfl

theorem toDigits_all_isDigit (n : Nat) : (Nat.toDigits 10 n).all Char.isDigit = true :=
  toDigitsCore_all_isDigit (n + 1) n [] rfl

theorem toDigits_ne_nil (n : Nat) : Nat.toDigits 10 n ≠ [] := by
  simp only [Nat.toDigits, Nat.toDigitsCore]
  split
  · exact List.cons_ne_nil _ _
  · exact toDigitsCore_ne_nil _ _ _ (List.cons_ne_nil _ _)

/-- A non-empty digit string is read as its value. -/
theorem parseInt_digits (cs : List Char) (hne : cs ≠ [])
    (hall : cs.all Char.isDigit = true) : parseInt cs = some (digitsValue cs : Int) := by
  unfold parseInt
  split
  · exact absurd rfl hne
  · rename_i ds
    simp only [List.all_cons, Bool.and_eq_true] at hall
    exact absurd hall.1 (by decide)
  · simp [hall]

/-- Reading the decimal rendering of an integer gives the integer back. -/
theorem parseInt_to_string (n : Int) : parseInt (to_string n).data = some n := by
  unfold to_string
  split
  · rename_i hneg
    show parseInt ('-' :: Nat.toDigits 10 n.natAbs) = some n
    simp only [parseInt, ne_eq, toDigits_ne_nil, not_false_eq_true, toDigits_all_isDigit,
      and_self, if_true, digitsValue_toDigits, Option.some.injEq]
    omega
  · rename_i hpos
    show parseInt (Nat.toDigits 10 n.toNat) = some n
    rw [parseInt_digits _ (toDigits_ne_nil _) (toDigits_all_isDigit _), digitsValue_toDigits]
    simp only [Option.some.injEq]
    omega

/-! ### Text form of the generated descriptors -/

theorem splitChars_ne_nil (sep : Char) (l : List Char) : splitChars sep l ≠ [] := by
  cases l with
  | nil => simp [splitChars]
  | cons c cs =>
    simp only [splitChars]
    split
    · exact List.cons_ne_nil _ _
    · split <;> exact List.cons_ne_nil _ _

/-- A text without separator is one piece. -/
theorem splitChars_of_not_mem (sep : Char) (l : List Char) (h : sep ∉ l) :
    splitChars sep l = [l] := by
  induction l with
  | nil => rfl
  | cons c cs ih =>
    have hc : c ≠ sep := fun e => h (e ▸ List.mem_cons_self c cs)
    have hcs : sep ∉ cs := fun e => h (List.mem_cons_of_mem c e)
    simp only [splitChars, if_neg hc, ih hcs]

/-- The first piece of a text ends at the first separator. -/
theorem splitChars_append (sep : Char) (front rest : List Char) (h : sep ∉ front) :
    splitChars sep (front ++ sep :: rest) = front :: splitChars sep rest := by
  induction front with
  | nil => simp [splitChars]
  | cons c cs ih =>
    have hc : c ≠ sep := fun e => h (e ▸ List.mem_cons_self c cs)
    have hcs : sep ∉ cs := fun e => h (List.mem_cons_of_mem c e)
    show splitChars sep (c :: (cs ++ sep :: rest)) = (c :: cs) :: splitChars sep rest
    simp only [splitChars, if_neg hc, ih hcs]

theorem isDigit_ne_separators (c : Char) (h : c.isDigit = true) :
    c ≠ ',' ∧ c ≠ ':' ∧ c ≠ '-' := by
  refine ⟨?_, ?_, ?_⟩ <;> intro e <;> subst e <;> revert h <;> decide

theorem not_mem_of_all_isDigit (sep : Char) (cs : List Char)
    (hall : cs.all Char.isDigit = true) (hsep : sep.isDigit = false) : sep ∉ cs := by
  intro hm
  have := (List.all_eq_true.1 hall) sep hm
  rw [hsep] at this
  exact Bool.noConfusion this

/-- The decimal rendering of an integer holds no comma and no colon. -/
theorem to_string_no_separator (n : Int) :
    ',' ∉ (to_string n).data ∧ ':' ∉ (to_string n).data := by
  unfold to_string
  split
  · show ',' ∉ '-' :: Nat.toDigits 10 n.natAbs ∧ ':' ∉ '-' :: Nat.toDigits 10 n.natAbs
    have h1 := not_mem_of_all_isDigit ',' _ (toDigits_all_isDigit n.natAbs) (by decide)
    have h2 := not_mem_of_all_isDigit ':' _ (toDigits_all_isDigit n.natAbs) (by decide)
    constructor
    · intro hm
      rcases List.mem_cons.1 hm with e | e
      · exact absurd e (by decide)
      · exact h1 e
    · intro hm
      rcases List.mem_cons.1 hm with e | e
      · exact absurd e (by decide)
      · exact h2 e
  · exact ⟨not_mem_of_all_isDigit ',' _ (toDigits_all_isDigit n.toNat) (by decide),
      not_mem_of_all_isDigit ':' _ (toDigits_all_isDigit n.toNat) (by decide)⟩

/-- Reading back the text form of a `gamepad` descriptor whose code holds no
separator gives the descriptor. -/
theorem ofSerialized_gamepad (value : String) (h1 : ',' ∉ value.data)
    (h2 : ':' ∉ value.data) :
    ParamPackage.ofSerialized
        (ParamPackage.Serialize ⟨[("engine", "gamepad"), ("code", value)]⟩)
      = ⟨[("engine", "gamepad"), ("code", value)]⟩ := by
  have hs : (ParamPackage.Serialize ⟨[("engine", "gamepad"), ("code", value)]⟩).data
      = ['e', 'n', 'g', 'i', 'n', 'e', ':', 'g', 'a', 'm', 'e', 'p', 'a', 'd']
        ++ ',' :: (['c', 'o', 'd', 'e'] ++ ':' :: value.data) := by
    have he : "engine".data ++ ':' :: "gamepad".data
        = ['e', 'n', 'g', 'i', 'n', 'e', ':', 'g', 'a', 'm', 'e', 'p', 'a', 'd'] := by decide
    have hc : "code".data = ['c', 'o', 'd', 'e'] := by decide
    rw [← he, ← hc]
    simp [ParamPackage.Serialize, List.intercalate]
  have hB : ',' ∉ ['c', 'o', 'd', 'e'] ++ ':' :: value.data := by
    intro hm
    rcases List.mem_append.1 hm with e | e
    · exact absurd e (by decide)
    · rcases List.mem_cons.1 e with e | e
      · exact absurd e (by decide)
      · exact h1 e
  have hA : splitChars ':' ['e', 'n', 'g', 'i', 'n', 'e', ':', 'g', 'a', 'm', 'e', 'p', 'a', 'd']
      = [['e', 'n', 'g', 'i', 'n', 'e'], ['g', 'a', 'm', 'e', 'p', 'a', 'd']] := by decide
  have hC : splitChars ':' (['c', 'o', 'd', 'e'] ++ ':' :: value.data)
      = [['c', 'o', 'd', 'e'], value.data] := by
    rw [splitChars_append ':' _ _ (by decide), splitChars_of_not_mem ':' _ h2]
  simp only [ParamPackage.ofSerialized]
  rw [hs, splitChars_append ',' _ _ (by decide), splitChars_of_not_mem ',' _ hB]
  simp only [List.filterMap_cons, List.filterMap_nil, hA, hC]

/-- The decimal rendering at zero and at the two ends of the `int` range. -/
theorem to_string_extremes :
    to_string 0 = "0" ∧ to_string 2147483647 = "2147483647" ∧
    to_string (-2147483648) = "-2147483648" := by
  decide

/-- The descriptor read back from a generated default. -/
theorem ofSerialized_generated (n : Int) :
    ParamPackage.ofSerialized (GenerateButtonParamPackage n)
        = ⟨[("engine", "gamepad"), ("code", to_string n)]⟩ ∧
    ParamPackage.ofSerialized (GenerateAnalogParamPackage n)
        = ⟨[("engine", "gamepad"), ("code", to_string n)]⟩ :=
  ⟨ofSerialized_gamepad (to_string n) (to_string_no_separator n).1 (to_string_no_separator n).2,
   ofSerialized_gamepad (to_string n) (to_string_no_separator n).1 (to_string_no_separator n).2⟩

/-- A `gamepad` descriptor whose code is the decimal rendering of `n` is read by
`Get` as `n`. -/
theorem gamepad_Get_code (n : Int) :
    (ParamPackage.mk [("engine", "gamepad"), ("code", to_string n)]).Get "code" 0 = n := by
  have hl : List.lookup "code" [("engine", "gamepad"), ("code", to_string n)]
      = some (to_string n) := by
    have h1 : ("code" == "engine") = false := by decide
    have h2 : ("code" == "code") = true := by decide
    simp only [List.lookup, h1, h2]
  simp only [ParamPackage.Get, hl, parseInt_to_string]

/-- C14. Default-binding round trip: for every integer `n`, the text produced by
`GenerateButtonParamPackage(n)` and by `GenerateAnalogParamPackage(n)` is the text
form of a descriptor whose `engine` field is `gamepad` and whose `code` field is
the decimal rendering of `n`; reading that field the way `Create` does gives `n`
back, so `Create` registers the handle made from the generated default under
`n`. -/
theorem default_binding_round_trip (n : Int) :
    ((ParamPackage.ofSerialized (GenerateButtonParamPackage n)).data.lookup "engine"
        = some "gamepad" ∧
      (ParamPackage.ofSerialized (GenerateButtonParamPackage n)).data.lookup "code"
        = some (to_string n) ∧
      (ParamPackage.ofSerialized (GenerateButtonParamPackage n)).Get "code" 0 = n ∧
      ∀ (st : ButtonState) (p : Ptr),
        (ButtonFactory.Create st (ParamPackage.ofSerialized (GenerateButtonParamPackage n)) p).list
          = st.list ++ [⟨n, p⟩]) ∧
    ((ParamPackage.ofSerialized (GenerateAnalogParamPackage n)).data.lookup "engine"
        = some "gamepad" ∧
      (ParamPackage.ofSerialized (GenerateAnalogParamPackage n)).data.lookup "code"
        = some (to_string n) ∧
      (ParamPackage.ofSerialized (GenerateAnalogParamPackage n)).Get "code" 0 = n ∧
      ∀ (st : AnalogState) (p : Ptr),
        (AnalogFactory.Create st (ParamPackage.ofSerialized (GenerateAnalogParamPackage n)) p).list
          = st.list ++ [⟨n, p⟩]) := by
  have h1 : ("engine" == "engine") = true := by decide
  have h2 : ("code" == "engine") = false := by decide
  have h3 : ("code" == "code") = true := by decide
  rw [(ofSerialized_generated n).1, (ofSerialized_generated n).2]
  refine ⟨⟨?_, ?_, gamepad_Get_code n, ?_⟩, ⟨?_, ?_, gamepad_Get_code n, ?_⟩⟩
  · simp only [List.lookup, h1]
  · simp only [List.lookup, h2, h3]
  · intro st p
    simp only [ButtonFactory.Create, ButtonList.AddButton, KeyButton.construct,
      gamepad_Get_code n]
  · simp only [List.lookup, h1]
  · simp only [List.lookup, h2, h3]
  · intro st p
    simp only [AnalogFactory.Create, AnalogList.AddButton, Joystick.construct,
      gamepad_Get_code n]

/-- C15, at the failing input `Init(); Shutdown();` in a fresh process. After
`Init` both factories are registered under `gamepad` and both accessors return
them. After `Shutdown` both accessors return null and the button-device
directory has no entry for `gamepad`, but the analog-device directory still has
its entry: `Shutdown` unregisters the button factory only. -/
theorem shutdown_keeps_analog_factory :
    ((Init Globals.start 1 2).button_factories = [("gamepad", 1)] ∧
      (Init Globals.start 1 2).analog_factories = [("gamepad", 2)] ∧
      ButtonHandler (Init Globals.start 1 2) = some 1 ∧
      AnalogHandler (Init Globals.start 1 2) = some 2) ∧
    (ButtonHandler (Shutdown (Init Globals.start 1 2)) = none ∧
      AnalogHandler (Shutdown (Init Globals.start 1 2)) = none ∧
      (Shutdown (Init Globals.start 1 2)).button_factories.hasEntry "gamepad" = false ∧
      (Shutdown (Init Globals.start 1 2)).analog_factories.hasEntry "gamepad" = true ∧
      (Shutdown (Init Globals.start 1 2)).analog_factories = [("gamepad", 2)]) := by
  decide

/-- C17. Codes are scoped per device kind: `PressKey(c)` and `ReleaseKey(c)` leave
the analog factory as it is, so every analog handle, also one registered under
the same integer `c`, polls what it polled before; `MoveJoystick(c, x, y)` leaves
the button factory as it is, so every digital handle polls what it polled
before. The same holds for the JNI entry points that forward to them. -/
theorem codes_scoped_per_kind (s : InputState) (c pressed : Int) (x y : CFloat) :
    ((s.PressKey c).analog.list = s.analog.list ∧
      (s.ReleaseKey c).analog.list = s.analog.list ∧
      (onGamePadEvent s c pressed).analog.list = s.analog.list ∧
      ∀ q, Joystick.GetStatus (s.PressKey c).analog q = Joystick.GetStatus s.analog q ∧
        Joystick.GetStatus (s.ReleaseKey c).analog q = Joystick.GetStatus s.analog q ∧
        Joystick.GetStatus (onGamePadEvent s c pressed).analog q
          = Joystick.GetStatus s.analog q) ∧
    ((s.MoveJoystick c x y).button.list = s.button.list ∧
      (onGamePadMoveEvent s c x y).button.list = s.button.list ∧
      ∀ q, KeyButton.GetStatus (s.MoveJoystick c x y).button q
          = KeyButton.GetStatus s.button q ∧
        KeyButton.GetStatus (onGamePadMoveEvent s c x y).button q
          = KeyButton.GetStatus s.button q) := by
  have he : (onGamePadEvent s c pressed).analog = s.analog := by
    unfold onGamePadEvent
    split <;> rfl
  refine ⟨⟨rfl, rfl, by rw [he], fun q => ⟨rfl, rfl, by rw [he]⟩⟩,
    ⟨rfl, rfl, fun q => ⟨rfl, rfl⟩⟩⟩

/-- The numbers behind the sample patterns. -/
theorem CFloat.toRat_samples :
    CFloat.toRat CFloat.zero = 0 ∧ CFloat.toRat CFloat.half = 1 / 2 ∧
    CFloat.toRat CFloat.one = 1 ∧ CFloat.toRat CFloat.threeQuarters = 3 / 4 ∧
    CFloat.toRat CFloat.negThreeQuarters = -(3 / 4) := by
  refine ⟨?_, ?_, ?_, ?_, ?_⟩ <;>
    norm_num [CFloat.toRat, CFloat.sign, CFloat.exponent, CFloat.mantissa, CFloat.zero,
      CFloat.half, CFloat.one, CFloat.threeQuarters, CFloat.negThreeQuarters]

/-- Unary minus on a binary32 pattern gives a binary32 pattern with the other sign
bit and the same exponent and fraction, which stands for the negated number;
applied twice it gives the pattern back. -/
theorem CFloat.neg_spec (y : CFloat) (hy : y.bits < 2 ^ 32) :
    (CFloat.neg y).bits < 2 ^ 32 ∧
    (CFloat.neg y).sign = 1 - y.sign ∧ y.sign = 1 - (CFloat.neg y).sign ∧
    (CFloat.neg y).exponent = y.exponent ∧
    (CFloat.neg y).mantissa = y.mantissa ∧
    (CFloat.neg y).toRat = -y.toRat ∧
    CFloat.neg (CFloat.neg y) = y := by
  have hy2 : y.bits < 4294967296 := by simpa using hy
  have hs : (CFloat.neg y).sign = 1 - y.sign ∧ y.sign = 1 - (CFloat.neg y).sign := by
    simp only [CFloat.sign, CFloat.neg]
    split <;> omega
  have he : (CFloat.neg y).exponent = y.exponent := by
    simp only [CFloat.exponent, CFloat.neg]
    split <;> omega
  have hm : (CFloat.neg y).mantissa = y.mantissa := by
    simp only [CFloat.mantissa, CFloat.neg]
    split <;> omega
  refine ⟨?_, hs.1, hs.2, he, hm, ?_, ?_⟩
  · show (CFloat.neg y).bits < 2 ^ 32
    simp only [CFloat.neg]
    split <;> omega
  · have hsy : y.sign = 0 ∨ y.sign = 1 := by
      simp only [CFloat.sign]
      omega
    simp only [CFloat.toRat, he, hm]
    rcases hsy with h0 | h1
    · have hn : (CFloat.neg y).sign = 1 := by rw [hs.1, h0]
      simp [h0, hn]
    · have hn : (CFloat.neg y).sign = 0 := by rw [hs.1, h1]
      simp [h1, hn]
  · cases y with
    | mk b =>
      simp only [CFloat.neg, CFloat.mk.injEq]
      simp only at hy2
      split <;> split <;> omega

/-- C19. The JNI analog entry point flips the sign of `y` and forwards: for every
axis id `a` and floats `x`, `y`, `onGamePadMoveEvent(a, x, y)` does what
`MoveJoystick(a, x, -y)` does, and in a reachable analog registry the handles
registered under other codes poll what they polled before. Every `Joystick`
registered under `a` then polls `x` unchanged and, for `y`, the binary32 value
with the opposite sign bit and the exponent and fraction of `y`: the number it
stands for is the negation of the number `y` stands for. -/
theorem move_event_flips_y (s : InputState) (a : Int) (x y : CFloat) :
    onGamePadMoveEvent s a x y = s.MoveJoystick a x (CFloat.neg y) ∧
    (∀ pair ∈ s.analog.list, pair.analog_id = a →
      Joystick.GetStatus (onGamePadMoveEvent s a x y).analog pair.key_button
        = (x, CFloat.neg y)) ∧
    (s.analog.Reachable → ∀ pair ∈ s.analog.list, pair.analog_id ≠ a →
      Joystick.GetStatus (onGamePadMoveEvent s a x y).analog pair.key_button
        = Joystick.GetStatus s.analog pair.key_button) ∧
    (y.bits < 2 ^ 32 → ∀ pair ∈ s.analog.list, pair.analog_id = a →
      (Joystick.GetStatus (onGamePadMoveEvent s a x y).analog pair.key_button).1 = x ∧
      (Joystick.GetStatus (onGamePadMoveEvent s a x y).analog pair.key_button).2.bits
        < 2 ^ 32 ∧
      (Joystick.GetStatus (onGamePadMoveEvent s a x y).analog pair.key_button).2.sign
        = 1 - y.sign ∧
      y.sign
        = 1 - (Joystick.GetStatus (onGamePadMoveEvent s a x y).analog pair.key_button).2.sign ∧
      (Joystick.GetStatus (onGamePadMoveEvent s a x y).analog pair.key_button).2.exponent
        = y.exponent ∧
      (Joystick.GetStatus (onGamePadMoveEvent s a x y).analog pair.key_button).2.mantissa
        = y.mantissa ∧
      (Joystick.GetStatus (onGamePadMoveEvent s a x y).analog pair.key_button).2.toRat
        = -y.toRat) := by
  have hpoll : ∀ pair ∈ s.analog.list, pair.analog_id = a →
      Joystick.GetStatus (onGamePadMoveEvent s a x y).analog pair.key_button
        = (x, CFloat.neg y) := by
    intro pair hreg hcode
    have hany : s.analog.list.any
        (fun p => decide (p.analog_id = a ∧ p.key_button = pair.key_button)) = true := by
      simp only [List.any_eq_true, decide_eq_true_eq]
      exact ⟨pair, hreg, hcode, rfl⟩
    simp only [onGamePadMoveEvent, InputState.MoveJoystick, Joystick.GetStatus,
      AnalogFactory.MoveJoystick, AnalogList.ChangeJoystickStatus_x_axis,
      AnalogList.ChangeJoystickStatus_y_axis, hany, if_true]
  refine ⟨rfl, hpoll, ?_, ?_⟩
  · intro hr pair hreg hcode
    have hframe : ∀ p ∈ s.analog.list, p.key_button = pair.key_button → p.analog_id ≠ a := by
      intro p hp hpq
      rw [hr.analog_wellFormed.analog_unique hp hreg hpq]
      exact hcode
    have h := AnalogList.ChangeJoystickStatus_frame s.analog a x (CFloat.neg y)
      pair.key_button hframe
    simp only [onGamePadMoveEvent, InputState.MoveJoystick, Joystick.GetStatus,
      AnalogFactory.MoveJoystick, h.1, h.2]
  · intro hy pair hreg hcode
    rw [hpoll pair hreg hcode]
    have h := CFloat.neg_spec y hy
    exact ⟨rfl, h.1, h.2.1, h.2.2.1, h.2.2.2.1, h.2.2.2.2.1, h.2.2.2.2.2.1⟩

/-- With sticks under codes 10 and 15, the move event `(10, 0.5, 0.75)` leaves the
stick under code 10 at `(0.5, -0.75)`: the polled `y` has its sign bit set and
the exponent and fraction of `0.75`; the stick under code 15 stays at
`(0.0, 0.0)`. -/
theorem move_event_flips_y_witness :
    Joystick.GetStatus
        (onGamePadMoveEvent ⟨twoButtons42, twoSticks⟩ 10 CFloat.half
          CFloat.threeQuarters).analog 300
      = (CFloat.half, CFloat.negThreeQuarters) ∧
    Joystick.GetStatus
        (onGamePadMoveEvent ⟨twoButtons42, twoSticks⟩ 10 CFloat.half
          CFloat.threeQuarters).analog 400
      = (CFloat.zero, CFloat.zero) ∧
    ((Joystick.GetStatus
        (onGamePadMoveEvent ⟨twoButtons42, twoSticks⟩ 10 CFloat.half
          CFloat.threeQuarters).analog 300).2.sign = 1 ∧
      (Joystick.GetStatus
        (onGamePadMoveEvent ⟨twoButtons42, twoSticks⟩ 10 CFloat.half
          CFloat.threeQuarters).analog 300).2.exponent = 126 ∧
      (Joystick.GetStatus
        (onGamePadMoveEvent ⟨twoButtons42, twoSticks⟩ 10 CFloat.half
          CFloat.threeQuarters).analog 300).2.mantissa = 0x400000) :=
  ⟨(move_event_flips_y ⟨twoButtons42, twoSticks⟩ 10 CFloat.half CFloat.threeQuarters).2.1
      ⟨10, 300⟩ (by decide) rfl,
   (move_event_flips_y ⟨twoButtons42, twoSticks⟩ 10 CFloat.half CFloat.threeQuarters).2.2.1
      ⟨fun _ => CFloat.one, fun _ => CFloat.one, _, by decide, rfl⟩
      ⟨15, 400⟩ (by decide) (by decide),
   ((move_event_flips_y ⟨twoButtons42, twoSticks⟩ 10 CFloat.half CFloat.threeQuarters).2.2.2
      (by decide) ⟨10, 300⟩ (by decide) rfl).2.2.1,
   ((move_event_flips_y ⟨twoButtons42, twoSticks⟩ 10 CFloat.half CFloat.threeQuarters).2.2.2
      (by decide) ⟨10, 300⟩ (by decide) rfl).2.2.2.2.1,
   ((move_event_flips_y ⟨twoButtons42, twoSticks⟩ 10 CFloat.half CFloat.threeQuarters).2.2.2
      (by decide) ⟨10, 300⟩ (by decide) rfl).2.2.2.2.2.1⟩

/-- C16, as stated, fails: with the stick under code 10 at `(0.0, 0.0)`, a poll
that overlaps the broadcast of `MoveJoystick(10, 0.5, -0.75)` can run its two
loads between the two stores and return `(0.5, 0.0)`, which is neither the old
nor the new pair. -/
theorem torn_analog_read :
    ¬ (∀ schedule ∈ interleavings (broadcastAccesses CFloat.half CFloat.negThreeQuarters)
          pollAccesses,
        (runSchedule twoSticks 300 schedule).result = some (Joystick.GetStatus twoSticks 300) ∨
        (runSchedule twoSticks 300 schedule).result
          = some (CFloat.half, CFloat.negThreeQuarters)) := by
  decide

/-- C16, amended. A poll that runs concurrently with a broadcast of `(x, y)` to
its handle returns, on each axis separately, either the old or the new value of
that axis; the two axes need not agree. Whatever the schedule, the broadcast
leaves the handle at `(x, y)`, and a poll that runs wholly before or wholly
after the two stores returns the complete old or the complete new pair. -/
theorem poll_reads_each_axis_old_or_new (st : AnalogState) (p : Ptr) (x y : CFloat)
    (schedule : List AxisAccess)
    (h : schedule ∈ interleavings (broadcastAccesses x y) pollAccesses) :
    (∃ rx ry, (runSchedule st p schedule).result = some (rx, ry) ∧
      (rx = st.x_axis p ∨ rx = x) ∧ (ry = st.y_axis p ∨ ry = y)) ∧
    Joystick.GetStatus (runSchedule st p schedule).st p = (x, y) ∧
    (runSchedule st p (pollAccesses ++ broadcastAccesses x y)).result
      = some (Joystick.GetStatus st p) ∧
    (runSchedule st p (broadcastAccesses x y ++ pollAccesses)).result = some (x, y) := by
  simp only [interleavings, interleavingsAux, broadcastAccesses, pollAccesses, List.map_cons,
    List.map_nil, List.cons_append, List.nil_append, List.mem_cons, List.mem_singleton,
    List.not_mem_nil, or_false] at h
  refine ⟨?_, ?_, ?_, ?_⟩
  · rcases h with rfl | rfl | rfl | rfl | rfl | rfl <;>
      simp only [runSchedule, AxisAccess.perform, PollRun.result, Joystick.x_axis_store,
        Joystick.y_axis_store, List.foldl_cons, List.foldl_nil, if_true] <;>
      exact ⟨_, _, rfl, by simp, by simp⟩
  · rcases h with rfl | rfl | rfl | rfl | rfl | rfl <;>
      simp [runSchedule, AxisAccess.perform, Joystick.GetStatus, Joystick.x_axis_store,
        Joystick.y_axis_store]
  · simp [runSchedule, AxisAccess.perform, PollRun.result, pollAccesses, broadcastAccesses,
      Joystick.GetStatus, Joystick.x_axis_store, Joystick.y_axis_store]
  · simp [runSchedule, AxisAccess.perform, PollRun.result, pollAccesses, broadcastAccesses,
      Joystick.x_axis_store, Joystick.y_axis_store]

/-- The schedule store x, load x, load y, store y on the stick under code 10: the
poll returns the new x and the old y, and the stick ends at `(0.5, -0.75)`. -/
theorem poll_reads_each_axis_old_or_new_witness :
    (∃ rx ry,
      (runSchedule twoSticks 300
          [.store_x CFloat.half, .load_x, .load_y, .store_y CFloat.negThreeQuarters]).result
        = some (rx, ry) ∧
      (rx = twoSticks.x_axis 300 ∨ rx = CFloat.half) ∧
      (ry = twoSticks.y_axis 300 ∨ ry = CFloat.negThreeQuarters)) ∧
    Joystick.GetStatus
        (runSchedule twoSticks 300
          [.store_x CFloat.half, .load_x, .load_y, .store_y CFloat.negThreeQuarters]).st 300
      = (CFloat.half, CFloat.negThreeQuarters) :=
  ⟨(poll_reads_each_axis_old_or_new twoSticks 300 CFloat.half CFloat.negThreeQuarters
      [.store_x CFloat.half, .load_x, .load_y, .store_y CFloat.negThreeQuarters]
      (by decide)).1,
   (poll_reads_each_axis_old_or_new twoSticks 300 CFloat.half CFloat.negThreeQuarters
      [.store_x CFloat.half, .load_x, .load_y, .store_y CFloat.negThreeQuarters]
      (by decide)).2.1⟩

/-- Whether some element satisfies a test does not depend on the order. -/
theorem any_eq_of_perm {α : Type} {l1 l2 : List α} (h : l1.Perm l2) (f : α → Bool) :
    l1.any f = l2.any f := by
  rw [Bool.eq_iff_iff, List.any_eq_true, List.any_eq_true]
  constructor
  · rintro ⟨a, ha, hf⟩
    exact ⟨a, h.mem_iff.1 ha, hf⟩
  · rintro ⟨a, ha, hf⟩
    exact ⟨a, h.mem_iff.2 ha, hf⟩

/-- C18. Insertion order is irrelevant: when two registries hold the same
registrations in different orders and their handles hold the same states, then
after the same update, by code or to all, every handle polls the same value in
both, and after the same `RemoveButton` the two lists are again permutations of
each other. Holds for both registries. -/
theorem insertion_order_irrelevant (b1 b2 : ButtonState) (a1 a2 : AnalogState)
    (hbl : b1.list.Perm b2.list)
    (hbs : ∀ pair ∈ b1.list,
      KeyButton.GetStatus b1 pair.key_button = KeyButton.GetStatus b2 pair.key_button)
    (hal : a1.list.Perm a2.list)
    (has : ∀ pair ∈ a1.list,
      Joystick.GetStatus a1 pair.key_button = Joystick.GetStatus a2 pair.key_button) :
    ((∀ (c : Int) (v : Bool), ∀ pair ∈ b1.list,
        KeyButton.GetStatus (ButtonList.ChangeButtonStatus b1 c v) pair.key_button
          = KeyButton.GetStatus (ButtonList.ChangeButtonStatus b2 c v) pair.key_button) ∧
      (∀ (v : Bool), ∀ pair ∈ b1.list,
        KeyButton.GetStatus (ButtonList.ChangeAllButtonStatus b1 v) pair.key_button
          = KeyButton.GetStatus (ButtonList.ChangeAllButtonStatus b2 v) pair.key_button) ∧
      (∀ h : Ptr, (ButtonList.RemoveButton b1 h).list.Perm (ButtonList.RemoveButton b2 h).list)) ∧
    ((∀ (c : Int) (x y : CFloat), ∀ pair ∈ a1.list,
        Joystick.GetStatus (AnalogList.ChangeJoystickStatus a1 c x y) pair.key_button
          = Joystick.GetStatus (AnalogList.ChangeJoystickStatus a2 c x y) pair.key_button) ∧
      (∀ (c : Int) (x y : CFloat), ∀ pair ∈ a1.list,
        Joystick.GetStatus (AnalogList.ChangeAllButtonStatus a1 c x y) pair.key_button
          = Joystick.GetStatus (AnalogList.ChangeAllButtonStatus a2 c x y) pair.key_button) ∧
      (∀ h : Ptr, (AnalogList.RemoveButton a1 h).list.Perm (AnalogList.RemoveButton a2 h).list)) := by
  refine ⟨⟨?_, ?_, ?_⟩, ⟨?_, ?_, ?_⟩⟩
  · intro c v pair hp
    have hs : b1.status pair.key_button = b2.status pair.key_button := hbs pair hp
    simp only [KeyButton.GetStatus, ButtonList.ChangeButtonStatus_status,
      any_eq_of_perm hbl, hs]
  · intro v pair hp
    have hs : b1.status pair.key_button = b2.status pair.key_button := hbs pair hp
    simp only [KeyButton.GetStatus, ButtonList.ChangeAllButtonStatus,
      ButtonList.changeAllLoop_status, any_eq_of_perm hbl, hs]
  · intro h
    rw [ButtonList.button_RemoveButton_list, ButtonList.button_RemoveButton_list]
    exact hbl.filter _
  · intro c x y pair hp
    have hs := has pair hp
    simp only [Joystick.GetStatus, Prod.mk.injEq] at hs
    simp only [Joystick.GetStatus, AnalogList.ChangeJoystickStatus_x_axis,
      AnalogList.ChangeJoystickStatus_y_axis, any_eq_of_perm hal, hs.1, hs.2]
  · intro c x y pair hp
    have hs := has pair hp
    simp only [Joystick.GetStatus, Prod.mk.injEq] at hs
    simp only [Joystick.GetStatus, AnalogList.ChangeAllButtonStatus,
      AnalogList.changeAllLoop_x_axis, AnalogList.changeAllLoop_y_axis, any_eq_of_perm hal,
      hs.1, hs.2]
  · intro h
    rw [AnalogList.analog_RemoveButton_list, AnalogList.analog_RemoveButton_list]
    exact hal.filter _

/-- Two buttons under code 42 and two sticks under codes 10 and 15, each pair
created in both orders: after `ChangeButtonStatus(42, true)` the handle at 100
polls the same in both button registries, after `ChangeJoystickStatus(15, ...)`
the stick at 400 polls the same in both analog registries, and after
`RemoveButton(100)` the button lists are permutations of each other. -/
theorem insertion_order_irrelevant_witness :
    KeyButton.GetStatus (ButtonList.ChangeButtonStatus twoButtons42 42 true) 100
      = KeyButton.GetStatus (ButtonList.ChangeButtonStatus twoButtons42Swapped 42 true) 100 ∧
    Joystick.GetStatus
        (AnalogList.ChangeJoystickStatus twoSticks 15 CFloat.half CFloat.negThreeQuarters) 400
      = Joystick.GetStatus
        (AnalogList.ChangeJoystickStatus twoSticksSwapped 15 CFloat.half
          CFloat.negThreeQuarters) 400 ∧
    (ButtonList.RemoveButton twoButtons42 100).list.Perm
      (ButtonList.RemoveButton twoButtons42Swapped 100).list :=
  ⟨(insertion_order_irrelevant twoButtons42 twoButtons42Swapped twoSticks twoSticksSwapped
      (List.Perm.swap _ _ []) (by decide) (List.Perm.swap _ _ []) (by decide)).1.1
      42 true ⟨42, 100⟩ (by decide),
   (insertion_order_irrelevant twoButtons42 twoButtons42Swapped twoSticks twoSticksSwapped
      (List.Perm.swap _ _ []) (by decide) (List.Perm.swap _ _ []) (by decide)).2.1
      15 CFloat.half CFloat.negThreeQuarters ⟨15, 400⟩ (by decide),
   (insertion_order_irrelevant twoButtons42 twoButtons42Swapped twoSticks twoSticksSwapped
      (List.Perm.swap _ _ []) (by decide) (List.Perm.swap _ _ []) (by decide)).1.2.2 100⟩

/-! ### Configuration loops -/

/-- The text form of a `gamepad` descriptor starts with the engine item. -/
theorem Serialize_gamepad_data (value : String) :
    (ParamPackage.Serialize ⟨[("engine", "gamepad"), ("code", value)]⟩).data
      = ['e', 'n', 'g', 'i', 'n', 'e', ':', 'g', 'a', 'm', 'e', 'p', 'a', 'd']
        ++ ',' :: (['c', 'o', 'd', 'e'] ++ ':' :: value.data) := by
  have he : "engine".data ++ ':' :: "gamepad".data
      = ['e', 'n', 'g', 'i', 'n', 'e', ':', 'g', 'a', 'm', 'e', 'p', 'a', 'd'] := by decide
  have hc : "code".data = ['c', 'o', 'd', 'e'] := by decide
  rw [← he, ← hc]
  simp [ParamPackage.Serialize, List.intercalate]

/-- A generated default is never the empty text. -/
theorem Generate_ne_empty (n : Int) :
    GenerateButtonParamPackage n ≠ "" ∧ GenerateAnalogParamPackage n ≠ "" := by
  constructor <;>
  · intro h
    have hd := congrArg String.data h
    simp only [GenerateButtonParamPackage, GenerateAnalogParamPackage] at hd
    rw [Serialize_gamepad_data] at hd
    exact List.cons_ne_nil _ _ hd

/-- What the two assignments of a loop round leave in the slot. -/
theorem Get_then_default (reader : INIReader) (sect name default_param : String) :
    (if reader.Get sect name default_param = "" then default_param
      else reader.Get sect name default_param)
      = configuredOrDefault (reader.value sect name) default_param := by
  unfold INIReader.Get configuredOrDefault
  cases reader.value sect name with
  | none => simp
  | some s => rfl

/-- A loop that writes `f i` into button slot `i` for each index of a list. -/
theorem foldl_buttons (f : Nat → String) (l : List Nat) (v : Values) :
    (l.foldl (fun v i => ({ v with buttons := Function.update v.buttons i (f i) } : Values))
        v).analogs = v.analogs ∧
    ∀ j, (l.foldl (fun v i => ({ v with buttons := Function.update v.buttons i (f i) } : Values))
        v).buttons j = if j ∈ l then f j else v.buttons j := by
  induction l generalizing v with
  | nil => simp
  | cons a rest ih =>
    simp only [List.foldl_cons]
    refine ⟨(ih _).1, fun j => ?_⟩
    rw [(ih _).2 j]
    by_cases hj : j ∈ rest
    · simp [hj]
    · by_cases ha : j = a
      · subst ha
        simp [hj]
      · simp [hj, ha, Function.update_noteq ha]

/-- A loop that writes `f i` into analog slot `i` for each index of a list. -/
theorem foldl_analogs (f : Nat → String) (l : List Nat) (v : Values) :
    (l.foldl (fun v i => ({ v with analogs := Function.update v.analogs i (f i) } : Values))
        v).buttons = v.buttons ∧
    ∀ j, (l.foldl (fun v i => ({ v with analogs := Function.update v.analogs i (f i) } : Values))
        v).analogs j = if j ∈ l then f j else v.analogs j := by
  induction l generalizing v with
  | nil => simp
  | cons a rest ih =>
    simp only [List.foldl_cons]
    refine ⟨(ih _).1, fun j => ?_⟩
    rw [(ih _).2 j]
    by_cases hj : j ∈ rest
    · simp [hj]
    · by_cases ha : j = a
      · subst ha
        simp [hj]
      · simp [hj, ha, Function.update_noteq ha]

/-- The Controls loops of `ReadValues` as two loops of single writes. -/
theorem ReadValues_eq (sdl2_config : INIReader) (NumButtons NumAnalogs : Nat)
    (button_mapping analog_mapping : Nat → String) (values : Values) :
    Config.ReadValues sdl2_config NumButtons NumAnalogs button_mapping analog_mapping values
      = (List.range NumAnalogs).foldl
          (fun v i => ({ v with
            analogs := Function.update v.analogs i
              (analogBinding sdl2_config analog_mapping i) } : Values))
          ((List.range NumButtons).foldl
            (fun v i => ({ v with
              buttons := Function.update v.buttons i
                (buttonBinding sdl2_config button_mapping i) } : Values))
            values) := by
  unfold Config.ReadValues analogBinding buttonBinding
  dsimp only
  congr 1
  · funext v i
    simp only [Function.update_same, Function.update_idem]
    rw [← Get_then_default]
    split <;> rfl
  · congr 1
    funext v i
    simp only [Function.update_same, Function.update_idem]
    rw [← Get_then_default]
    split <;> rfl

/-- C20. Configured-or-default bindings: after the Controls loops of
`Config::ReadValues`, every button slot `i` holds the text stored in the
`Controls` section under the key name of the slot when there is one and it is
not empty, and `GenerateButtonParamPackage(default_buttons[i])` otherwise; every
analog slot likewise with `GenerateAnalogParamPackage(default_analogs[i])`; no
slot holds the empty text. -/
theorem configured_or_default (sdl2_config : INIReader) (NumButtons NumAnalogs : Nat)
    (button_mapping analog_mapping : Nat → String) (values : Values) :
    (∀ i, i < NumButtons →
      (Config.ReadValues sdl2_config NumButtons NumAnalogs button_mapping analog_mapping
          values).buttons i
        = configuredOrDefault (sdl2_config.value "Controls" (button_mapping i))
            (GenerateButtonParamPackage (default_buttons.getD i 0)) ∧
      (Config.ReadValues sdl2_config NumButtons NumAnalogs button_mapping analog_mapping
          values).buttons i ≠ "") ∧
    (∀ i, i < NumAnalogs →
      (Config.ReadValues sdl2_config NumButtons NumAnalogs button_mapping analog_mapping
          values).analogs i
        = configuredOrDefault (sdl2_config.value "Controls" (analog_mapping i))
            (GenerateAnalogParamPackage (default_analogs.getD i 0)) ∧
      (Config.ReadValues sdl2_config NumButtons NumAnalogs button_mapping analog_mapping
          values).analogs i ≠ "") := by
  have hne : ∀ (stored : Option String) (d : String), d ≠ "" →
      configuredOrDefault stored d ≠ "" := by
    intro stored d hd
    unfold configuredOrDefault
    cases stored with
    | none => exact hd
    | some s =>
      by_cases hs : s = ""
      · simp [hs, hd]
      · simp [hs]
  rw [ReadValues_eq]
  constructor
  · intro i hi
    rw [(foldl_analogs _ _ _).1, (foldl_buttons _ _ _).2 i, if_pos (List.mem_range.2 hi)]
    exact ⟨rfl, hne _ _ (Generate_ne_empty _).1⟩
  · intro i hi
    rw [(foldl_analogs _ _ _).2 i, if_pos (List.mem_range.2 hi)]
    exact ⟨rfl, hne _ _ (Generate_ne_empty _).2⟩

/-- With `button_a` bound in the file, an empty `button_b` entry and no `c_stick`
entry, slot 0 holds the stored text, and button slot 1 and analog slot 1 hold the
generated defaults for codes 701 and 718. -/
theorem configured_or_default_witness :
    (Config.ReadValues sampleIni 15 2 sampleButtonMapping sampleAnalogMapping
        ⟨fun _ => "", fun _ => ""⟩).buttons 0 = "engine:keyboard,code:65" ∧
    (Config.ReadValues sampleIni 15 2 sampleButtonMapping sampleAnalogMapping
        ⟨fun _ => "", fun _ => ""⟩).buttons 1 = "engine:gamepad,code:701" ∧
    (Config.ReadValues sampleIni 15 2 sampleButtonMapping sampleAnalogMapping
        ⟨fun _ => "", fun _ => ""⟩).analogs 1 = "engine:gamepad,code:718" :=
  ⟨((configured_or_default sampleIni 15 2 sampleButtonMapping sampleAnalogMapping
      ⟨fun _ => "", fun _ => ""⟩).1 0 (by decide)).1,
   ((configured_or_default sampleIni 15 2 sampleButtonMapping sampleAnalogMapping
      ⟨fun _ => "", fun _ => ""⟩).1 1 (by decide)).1,
   ((configured_or_default sampleIni 15 2 sampleButtonMapping sampleAnalogMapping
      ⟨fun _ => "", fun _ => ""⟩).2 1 (by decide)).1⟩

/-! ### Facts for the algebra of updates -/

/-- Two button states with the same list, the same cells and the same live set
are the same state. -/
theorem ButtonState.button_eq_of_fields {a b : ButtonState} (hl : a.list = b.list)
    (hs : ∀ q, a.status q = b.status q) (hv : a.live = b.live) : a = b := by
  cases a with
  | mk al as av =>
    cases b with
    | mk bl bs bv =>
      have hs2 : as = bs := funext hs
      simp only at hl hv
      subst hl hs2 hv
      rfl

/-- Two analog states with the same list, the same cells and the same live set
are the same state. -/
theorem AnalogState.analog_eq_of_fields {a b : AnalogState} (hl : a.list = b.list)
    (hx : ∀ q, a.x_axis q = b.x_axis q) (hy : ∀ q, a.y_axis q = b.y_axis q)
    (hv : a.live = b.live) : a = b := by
  cases a with
  | mk al ax ay av =>
    cases b with
    | mk bl bx by2 bv =>
      have hx2 : ax = bx := funext hx
      have hy2 : ay = by2 := funext hy
      simp only at hl hv
      subst hl hx2 hy2 hv
      rfl

/-- A history of updates keeps the registration list of the button side. -/
theorem ButtonOp.button_run_updates_list (ops : List ButtonOp) (st : ButtonState)
    (hops : ∀ op ∈ ops, ButtonOp.isUpdate op = true) :
    (ButtonOp.run st ops).list = st.list := by
  induction ops generalizing st with
  | nil => rfl
  | cons op rest ih =>
    have hop := hops op (List.mem_cons_self op rest)
    have hstep : (ButtonOp.apply st op).list = st.list := by
      cases op with
      | create params q => simp [ButtonOp.isUpdate] at hop
      | destroy q => simp [ButtonOp.isUpdate] at hop
      | press c => exact ButtonList.ChangeButtonStatus_list st c true
      | release c => exact ButtonList.ChangeButtonStatus_list st c false
      | changeAll v => exact ButtonList.button_changeAllLoop_list v st.list st
    show (ButtonOp.run (ButtonOp.apply st op) rest).list = st.list
    rw [ih _ (fun o ho => hops o (List.mem_cons_of_mem op ho)), hstep]

/-- A history of updates keeps the registration list of the analog side. -/
theorem AnalogOp.analog_run_updates_list (ops : List AnalogOp) (st : AnalogState)
    (hops : ∀ op ∈ ops, AnalogOp.isUpdate op = true) :
    (AnalogOp.run st ops).list = st.list := by
  induction ops generalizing st with
  | nil => rfl
  | cons op rest ih =>
    have hop := hops op (List.mem_cons_self op rest)
    have hstep : (AnalogOp.apply st op).list = st.list := by
      cases op with
      | create params q => simp [AnalogOp.isUpdate] at hop
      | destroy q => simp [AnalogOp.isUpdate] at hop
      | move c x y => exact AnalogList.ChangeJoystickStatus_list st c x y
      | changeAll c x y => exact AnalogList.analog_changeAllLoop_list x y st.list st
    show (AnalogOp.run (AnalogOp.apply st op) rest).list = st.list
    rw [ih _ (fun o ho => hops o (List.mem_cons_of_mem op ho)), hstep]

/-- C21. Updates never change membership: `ChangeButtonStatus`,
`ChangeAllButtonStatus`, `ChangeJoystickStatus`, the analog
`ChangeAllButtonStatus` and the forwards `PressKey`, `ReleaseKey` and
`MoveJoystick` return a state whose registration list is the list they were
called with: same length, same pairs, same order. -/
theorem updates_keep_membership (bst : ButtonState) (ast : AnalogState) (c : Int) (v : Bool)
    (x y : CFloat) :
    ((ButtonList.ChangeButtonStatus bst c v).list = bst.list ∧
      (ButtonList.ChangeAllButtonStatus bst v).list = bst.list ∧
      (ButtonFactory.PressKey bst c).list = bst.list ∧
      (ButtonFactory.ReleaseKey bst c).list = bst.list) ∧
    ((AnalogList.ChangeJoystickStatus ast c x y).list = ast.list ∧
      (AnalogList.ChangeAllButtonStatus ast c x y).list = ast.list ∧
      (AnalogFactory.MoveJoystick ast c x y).list = ast.list) :=
  ⟨⟨ButtonList.ChangeButtonStatus_list bst c v,
     ButtonList.button_changeAllLoop_list v bst.list bst,
     ButtonList.ChangeButtonStatus_list bst c true,
     ButtonList.ChangeButtonStatus_list bst c false⟩,
   ⟨AnalogList.ChangeJoystickStatus_list ast c x y,
     AnalogList.analog_changeAllLoop_list x y ast.list ast,
     AnalogList.ChangeJoystickStatus_list ast c x y⟩⟩

/-- C23. Create followed by destruction restores the registry: when no
registration references the address `p`, creating a handle at `p` (for any
descriptor), issuing any updates, and destroying the handle leaves the
registration list that was there before the `Create`. Holds for both
registries. -/
theorem create_destroy_restores (bst : ButtonState) (ast : AnalogState)
    (params : ParamPackage) (p : Ptr) (bups : List ButtonOp) (aups : List AnalogOp)
    (hb : ∀ pair ∈ bst.list, pair.key_button ≠ p)
    (ha : ∀ pair ∈ ast.list, pair.key_button ≠ p)
    (hbups : ∀ op ∈ bups, ButtonOp.isUpdate op = true)
    (haups : ∀ op ∈ aups, AnalogOp.isUpdate op = true) :
    (KeyButton.destroy (ButtonOp.run (ButtonFactory.Create bst params p) bups) p).list
      = bst.list ∧
    (Joystick.destroy (AnalogOp.run (AnalogFactory.Create ast params p) aups) p).list
      = ast.list := by
  constructor
  · show (ButtonList.RemoveButton (ButtonOp.run (ButtonFactory.Create bst params p) bups) p).list
      = bst.list
    rw [ButtonList.button_RemoveButton_list, ButtonOp.button_run_updates_list _ _ hbups]
    show List.filter _ (bst.list ++ [⟨params.Get "code" 0, p⟩]) = bst.list
    rw [List.filter_append, List.filter_eq_self.2 (fun a h => by simpa using hb a h)]
    simp
  · show (AnalogList.RemoveButton (AnalogOp.run (AnalogFactory.Create ast params p) aups) p).list
      = ast.list
    rw [AnalogList.analog_RemoveButton_list, AnalogOp.analog_run_updates_list _ _ haups]
    show List.filter _ (ast.list ++ [⟨params.Get "code" 0, p⟩]) = ast.list
    rw [List.filter_append, List.filter_eq_self.2 (fun a h => by simpa using ha a h)]
    simp

/-- Next to the two buttons under code 42 and the two sticks, a third handle is
created under the same code, updates are issued, and the handle is destroyed:
the lists are the ones before. -/
theorem create_destroy_restores_witness :
    (KeyButton.destroy
        (ButtonOp.run (ButtonFactory.Create twoButtons42 (gamepadParams "42") 7)
          [.press 42, .changeAll false]) 7).list = twoButtons42.list ∧
    (Joystick.destroy
        (AnalogOp.run (AnalogFactory.Create twoSticks (gamepadParams "42") 7)
          [.move 42 CFloat.half CFloat.one]) 7).list = twoSticks.list :=
  create_destroy_restores twoButtons42 twoSticks (gamepadParams "42") 7
    [.press 42, .changeAll false] [.move 42 CFloat.half CFloat.one]
    (by decide) (by decide) (by decide) (by decide)

/-- In a well-formed button registry no address matches two different codes. -/
theorem ButtonState.WellFormed.not_both {st : ButtonState} (hwf : st.WellFormed)
    {c1 c2 : Int} (hc : c1 ≠ c2) (q : Ptr)
    (h1 : st.list.any (fun p => decide (p.button_id = c1 ∧ p.key_button = q)) = true)
    (h2 : st.list.any (fun p => decide (p.button_id = c2 ∧ p.key_button = q)) = true) :
    False := by
  simp only [List.any_eq_true, decide_eq_true_eq] at h1 h2
  obtain ⟨a, ha, hac, haq⟩ := h1
  obtain ⟨b, hb, hbc, hbq⟩ := h2
  have hab : a = b := hwf.button_unique ha hb (haq.trans hbq.symm)
  exact hc (hac.symm.trans ((congrArg KeyButtonPair.button_id hab).trans hbc))

/-- In a well-formed analog registry no address matches two different codes. -/
theorem AnalogState.WellFormed.analog_not_both {st : AnalogState} (hwf : st.WellFormed)
    {c1 c2 : Int} (hc : c1 ≠ c2) (q : Ptr)
    (h1 : st.list.any (fun p => decide (p.analog_id = c1 ∧ p.key_button = q)) = true)
    (h2 : st.list.any (fun p => decide (p.analog_id = c2 ∧ p.key_button = q)) = true) :
    False := by
  simp only [List.any_eq_true, decide_eq_true_eq] at h1 h2
  obtain ⟨a, ha, hac, haq⟩ := h1
  obtain ⟨b, hb, hbc, hbq⟩ := h2
  have hab : a = b := hwf.analog_unique ha hb (haq.trans hbq.symm)
  exact hc (hac.symm.trans ((congrArg AnalogPair.analog_id hab).trans hbc))

/-- Two writes guarded by tests that never hold together can be swapped. -/
theorem ite_comm_of_not_both {α : Type} (t1 t2 : Bool) (a1 a2 s : α)
    (h : t1 = true → t2 = true → False) :
    (if t2 = true then a2 else if t1 = true then a1 else s)
      = (if t1 = true then a1 else if t2 = true then a2 else s) := by
  cases t1 <;> cases t2 <;> simp
  exact (h rfl rfl).elim

/-- C22. Updates on distinct codes commute, and a repeated update is
idempotent: in every reachable state and for codes `c1` and `c2` that differ,
`ChangeButtonStatus(c1, v1)` followed by `ChangeButtonStatus(c2, v2)` gives the
registry state that the opposite order gives; `ChangeButtonStatus(c, v)` applied
twice gives the state it gives applied once. The same holds for
`ChangeJoystickStatus`. -/
theorem updates_commute_idempotent (bst : ButtonState) (ast : AnalogState)
    (c1 c2 c : Int) (v1 v2 v : Bool) (x1 y1 x2 y2 x y : CFloat)
    (hb : bst.Reachable) (ha : ast.Reachable) (hc : c1 ≠ c2) :
    (ButtonList.ChangeButtonStatus (ButtonList.ChangeButtonStatus bst c1 v1) c2 v2
        = ButtonList.ChangeButtonStatus (ButtonList.ChangeButtonStatus bst c2 v2) c1 v1 ∧
      ButtonList.ChangeButtonStatus (ButtonList.ChangeButtonStatus bst c v) c v
        = ButtonList.ChangeButtonStatus bst c v) ∧
    (AnalogList.ChangeJoystickStatus (AnalogList.ChangeJoystickStatus ast c1 x1 y1) c2 x2 y2
        = AnalogList.ChangeJoystickStatus (AnalogList.ChangeJoystickStatus ast c2 x2 y2)
            c1 x1 y1 ∧
      AnalogList.ChangeJoystickStatus (AnalogList.ChangeJoystickStatus ast c x y) c x y
        = AnalogList.ChangeJoystickStatus ast c x y) := by
  refine ⟨⟨?_, ?_⟩, ⟨?_, ?_⟩⟩
  · apply ButtonState.button_eq_of_fields
    · simp only [ButtonList.ChangeButtonStatus_list]
    · intro q
      simp only [ButtonList.ChangeButtonStatus_status, ButtonList.ChangeButtonStatus_list]
      exact ite_comm_of_not_both _ _ _ _ _ (hb.button_wellFormed.not_both hc q)
    · simp only [ButtonList.ChangeButtonStatus_live]
  · apply ButtonState.button_eq_of_fields
    · simp only [ButtonList.ChangeButtonStatus_list]
    · intro q
      simp only [ButtonList.ChangeButtonStatus_status, ButtonList.ChangeButtonStatus_list]
      split <;> rfl
    · simp only [ButtonList.ChangeButtonStatus_live]
  · apply AnalogState.analog_eq_of_fields
    · simp only [AnalogList.ChangeJoystickStatus_list]
    · intro q
      simp only [AnalogList.ChangeJoystickStatus_x_axis, AnalogList.ChangeJoystickStatus_list]
      exact ite_comm_of_not_both _ _ _ _ _ (ha.analog_wellFormed.analog_not_both hc q)
    · intro q
      simp only [AnalogList.ChangeJoystickStatus_y_axis, AnalogList.ChangeJoystickStatus_list]
      exact ite_comm_of_not_both _ _ _ _ _ (ha.analog_wellFormed.analog_not_both hc q)
    · simp only [AnalogList.ChangeJoystickStatus_live]
  · apply AnalogState.analog_eq_of_fields
    · simp only [AnalogList.ChangeJoystickStatus_list]
    · intro q
      simp only [AnalogList.ChangeJoystickStatus_x_axis, AnalogList.ChangeJoystickStatus_list]
      split <;> rfl
    · intro q
      simp only [AnalogList.ChangeJoystickStatus_y_axis, AnalogList.ChangeJoystickStatus_list]
      split <;> rfl
    · simp only [AnalogList.ChangeJoystickStatus_live]

/-- After the sample button history (handles under codes 5 and 7) a press of 5
and a release of 7 commute; with sticks under codes 10 and 15, moves of 10 and of
15 commute, and a repeated move of 10 changes nothing more. -/
theorem updates_commute_idempotent_witness :
    ButtonList.ChangeButtonStatus (ButtonList.ChangeButtonStatus sampleButtons 5 true) 7 false
      = ButtonList.ChangeButtonStatus (ButtonList.ChangeButtonStatus sampleButtons 7 false)
          5 true ∧
    AnalogList.ChangeJoystickStatus
        (AnalogList.ChangeJoystickStatus twoSticks 10 CFloat.half CFloat.one) 15
        CFloat.one CFloat.negThreeQuarters
      = AnalogList.ChangeJoystickStatus
          (AnalogList.ChangeJoystickStatus twoSticks 15 CFloat.one CFloat.negThreeQuarters) 10
          CFloat.half CFloat.one ∧
    AnalogList.ChangeJoystickStatus
        (AnalogList.ChangeJoystickStatus twoSticks 10 CFloat.half CFloat.one) 10
        CFloat.half CFloat.one
      = AnalogList.ChangeJoystickStatus twoSticks 10 CFloat.half CFloat.one :=
  ⟨(updates_commute_idempotent sampleButtons twoSticks 5 7 5 true false true
      CFloat.half CFloat.one CFloat.one CFloat.negThreeQuarters CFloat.half CFloat.one
      ⟨fun _ => false, sampleButtonOps, by decide, rfl⟩
      ⟨fun _ => CFloat.one, fun _ => CFloat.one, _, by decide, rfl⟩ (by decide)).1.1,
   (updates_commute_idempotent sampleButtons twoSticks 10 15 10 true false true
      CFloat.half CFloat.one CFloat.one CFloat.negThreeQuarters CFloat.half CFloat.one
      ⟨fun _ => false, sampleButtonOps, by decide, rfl⟩
      ⟨fun _ => CFloat.one, fun _ => CFloat.one, _, by decide, rfl⟩ (by decide)).2.1,
   (updates_commute_idempotent sampleButtons twoSticks 10 15 10 true false true
      CFloat.half CFloat.one CFloat.one CFloat.negThreeQuarters CFloat.half CFloat.one
      ⟨fun _ => false, sampleButtonOps, by decide, rfl⟩
      ⟨fun _ => CFloat.one, fun _ => CFloat.one, _, by decide, rfl⟩ (by decide)).2.2⟩

end InputManager
